import Mathlib

/-!
A verification development for the Fathom data-description language:
a shallow embedding of the elaboration and normalisation-by-evaluation
engine (`fathom/src/core/semantics.rs`, `fathom/src/surface/elaboration.rs`)
and of the de Bruijn environment machinery
(`experiments/rust-minimal/src/env.rs`), together with theorems checking
the natural-language specification against this embedding.

Machine integers are embedded as `Nat` (unsigned) and `Int` (signed) with
explicit range conditions; fallible or possibly-panicking Rust code is
embedded as `Option`-returning functions (`none` models a panic or
exhausted recursion fuel); recursive interpreter functions take an
explicit fuel parameter.
-/

namespace Fathom

/-! ## Environments (`experiments/rust-minimal/src/env.rs`)

The underlying variable representation is `u16` (`RawVar`); arithmetic on
it uses `checked_sub`, embedded here on `Nat`. -/

namespace Env

/-- `u16::checked_sub`: `some (a - b)` when `b ≤ a`, otherwise `none`.
For arguments below `2 ^ 16` this agrees with the Rust semantics. -/
def checkedSub (a b : Nat) : Option Nat :=
  if b ≤ a then some (a - b) else none

/-- `EnvLen::local_to_global`:
`Some(GlobalVar(self.0.checked_sub(local.0)?.checked_sub(1)?))`. -/
def localToGlobal (len localVar : Nat) : Option Nat :=
  (checkedSub len localVar).bind (fun a => checkedSub a 1)

/-- `EnvLen::global_to_local`:
`Some(LocalVar(self.0.checked_sub(global.0)?.checked_sub(1)?))`. -/
def globalToLocal (len globalVar : Nat) : Option Nat :=
  (checkedSub len globalVar).bind (fun a => checkedSub a 1)

/-- `UniqueEnv::push`: `assert!(self.entries.len() < usize::from(u16::MAX))`
then `self.entries.push(entry)`.  The environment is embedded as a Lean
list whose *last* element is the most recently bound entry; a failed
assertion (a panic) is embedded as `none`.  `u16::MAX = 65535`. -/
def uniquePush {α : Type} (entries : List α) (entry : α) : Option (List α) :=
  if entries.length < 65535 then some (entries ++ [entry]) else none

/-- `SharedEnv::push`: the same assertion and append as `UniqueEnv::push`
(`self.entries.push_back_mut(entry)` on the persistent vector). -/
def sharedPush {α : Type} (entries : List α) (entry : α) : Option (List α) :=
  if entries.length < 65535 then some (entries ++ [entry]) else none

/-- `SliceEnv::get_global`: `self.entries.get(usize::from(global_var.0))`. -/
def getGlobal {α : Type} (entries : List α) (globalVar : Nat) : Option α :=
  entries.get? globalVar

/-- `SliceEnv::get_local`:
`self.get_global(self.len().local_to_global(local_var)?)`. -/
def getLocal {α : Type} (entries : List α) (localVar : Nat) : Option α :=
  (localToGlobal entries.length localVar).bind (fun g => getGlobal entries g)

end Env

/-! ## Core constants and primitives (`fathom/src/core/semantics.rs`)

The `Prim`, `ConstLit` and `UIntStyle` enums live in `fathom/src/core`
(not under the sources provided); their constructors are reconstructed
from every use site in `semantics.rs` and from §3.5 of the specification.
Unsigned machine integers are embedded as `Nat`, signed ones as `Int`,
and IEEE-754 floats by their bit patterns (the spec fixes equality on
floats to be bitwise). -/

/-- Display-style tag carried on unsigned integer constants
(spec §3.5: decimal / hex / binary / ASCII). -/
inductive UIntStyle where
  | decimal
  | hexadecimal
  | binary
  | ascii
deriving DecidableEq, Repr

/-- Modelled from the spec: `UIntStyle::merge` is used by `prim_step` when
combining the styles of two operands, but its definition is not among the
provided sources.  The spec (§9, numeric-literal display) only asks that
radixes be preserved where possible; we take the common style when the two
agree and fall back to decimal otherwise.  No theorem below depends on
which style `merge` returns. -/
def UIntStyle.merge (a b : UIntStyle) : UIntStyle :=
  if a = b then a else .decimal

/-- Constant literals (`ConstLit` in `fathom/src/core`): booleans,
sized integers (unsigned ones carrying a display style), float bit
patterns, and buffer positions.  Range invariants (`x < 2 ^ 8` for `u8`
and so on) appear as hypotheses on theorems. -/
inductive ConstLit where
  | bool (b : Bool)
  | u8 (x : Nat) (style : UIntStyle)
  | u16 (x : Nat) (style : UIntStyle)
  | u32 (x : Nat) (style : UIntStyle)
  | u64 (x : Nat) (style : UIntStyle)
  | s8 (x : Int)
  | s16 (x : Int)
  | s32 (x : Int)
  | s64 (x : Int)
  | f32 (bits : Nat)
  | f64 (bits : Nat)
  | pos (x : Nat)
deriving DecidableEq, Repr

/-- Primitives (`Prim` in `fathom/src/core`): every constructor matched on
in `semantics.rs` (`prim_step`, `format_repr`) or `elaboration.rs`. -/
inductive Prim where
  | FormatRepr | FormatType | ReportedError
  | VoidType | BoolType | PosType | RefType
  | U8Type | U16Type | U32Type | U64Type
  | S8Type | S16Type | S32Type | S64Type
  | F32Type | F64Type
  | Array8Type | Array16Type | Array32Type | Array64Type
  | OptionSome | OptionNone | OptionFold
  | Array8Find | Array16Find | Array32Find | Array64Find
  | BoolEq | BoolNeq | BoolNot | BoolAnd | BoolOr | BoolXor
  | U8Eq | U8Neq | U8Gt | U8Lt | U8Gte | U8Lte
  | U8Add | U8Sub | U8Mul | U8Div | U8Not | U8Shl | U8Shr | U8And | U8Or | U8Xor
  | U16Eq | U16Neq | U16Gt | U16Lt | U16Gte | U16Lte
  | U16Add | U16Sub | U16Mul | U16Div | U16Not | U16Shl | U16Shr | U16And | U16Or | U16Xor
  | U32Eq | U32Neq | U32Gt | U32Lt | U32Gte | U32Lte
  | U32Add | U32Sub | U32Mul | U32Div | U32Not | U32Shl | U32Shr | U32And | U32Or | U32Xor
  | U64Eq | U64Neq | U64Gt | U64Lt | U64Gte | U64Lte
  | U64Add | U64Sub | U64Mul | U64Div | U64Not | U64Shl | U64Shr | U64And | U64Or | U64Xor
  | S8Eq | S8Neq | S8Gt | S8Lt | S8Gte | S8Lte
  | S8Neg | S8Add | S8Sub | S8Mul | S8Div | S8Abs | S8UAbs
  | S16Eq | S16Neq | S16Gt | S16Lt | S16Gte | S16Lte
  | S16Neg | S16Add | S16Sub | S16Mul | S16Div | S16Abs | S16UAbs
  | S32Eq | S32Neq | S32Gt | S32Lt | S32Gte | S32Lte
  | S32Neg | S32Add | S32Sub | S32Mul | S32Div | S32Abs | S32UAbs
  | S64Eq | S64Neq | S64Gt | S64Lt | S64Gte | S64Lte
  | S64Neg | S64Add | S64Sub | S64Mul | S64Div | S64Abs | S64UAbs
  | PosAddU8 | PosAddU16 | PosAddU32 | PosAddU64
  | FormatU8
  | FormatU16Be | FormatU16Le | FormatU32Be | FormatU32Le | FormatU64Be | FormatU64Le
  | FormatS8
  | FormatS16Be | FormatS16Le | FormatS32Be | FormatS32Le | FormatS64Be | FormatS64Le
  | FormatF32Be | FormatF32Le | FormatF64Be | FormatF64Le
  | FormatArray8 | FormatArray16 | FormatArray32 | FormatArray64
  | FormatLink | FormatDeref | FormatStreamPos
  | FormatSucceed | FormatFail | FormatUnwrap
deriving DecidableEq, Repr

/-- Interned identifiers (`StringId` / `Symbol`): only equality matters. -/
abbrev StringId := Nat

/-- Entry info recorded on `FlexibleInsertion` terms (`EntryInfo`):
whether a local binder is a parameter (applied) or a definition (skipped). -/
inductive EntryInfo where
  | definition
  | parameter
deriving DecidableEq, Repr

/-- Core terms (`Term` in `fathom/src/core`, the constructors evaluated by
`EvalContext::eval` in `semantics.rs`).  Spans are not carried: the spec
(§3.1) fixes that evaluation and conversion ignore them. -/
inductive Term where
  | rigidVar (var : Nat)
  | flexibleVar (var : Nat)
  | flexibleInsertion (var : Nat) (rigidInfos : List EntryInfo)
  | ann (expr : Term) (type : Term)
  | lett (name : Option StringId) (type : Term) (defExpr : Term) (outputExpr : Term)
  | universe
  | funType (inputName : Option StringId) (inputType : Term) (outputType : Term)
  | funLit (inputName : Option StringId) (outputExpr : Term)
  | funApp (headExpr : Term) (inputExpr : Term)
  | recordType (labels : List StringId) (types : List Term)
  | recordLit (labels : List StringId) (exprs : List Term)
  | recordProj (headExpr : Term) (label : StringId)
  | arrayLit (elemExprs : List Term)
  | formatRecord (labels : List StringId) (formats : List Term)
  | formatOverlap (labels : List StringId) (formats : List Term)
  | prim (p : Prim)
  | constLit (c : ConstLit)
  | constMatch (headExpr : Term) (branches : List (ConstLit × Term)) (defaultExpr : Option Term)
deriving Repr

/-- The head of a stuck value (`Head`). -/
inductive Head where
  | prim (p : Prim)
  | rigidVar (var : Nat)
  | flexibleVar (var : Nat)
deriving DecidableEq, Repr

mutual

/-- Values in weak-head-normal form (`Value`).  The rigid expression
environments captured by closures, telescopes and branches are lists whose
last element is the most recently bound entry. -/
inductive Value where
  | stuck (head : Head) (spine : List Elim)
  | universe
  | funType (inputName : Option StringId) (inputType : Value) (outputType : Closure)
  | funLit (inputName : Option StringId) (outputExpr : Closure)
  | recordType (labels : List StringId) (types : Telescope)
  | recordLit (labels : List StringId) (exprs : List Value)
  | arrayLit (elemExprs : List Value)
  | formatRecord (labels : List StringId) (formats : Telescope)
  | formatOverlap (labels : List StringId) (formats : Telescope)
  | constLit (c : ConstLit)
deriving Repr

/-- A pending elimination on a stuck value (`Elim`). -/
inductive Elim where
  | funApp (inputExpr : Value)
  | recordProj (label : StringId)
  | constMatch (branches : Branches)
deriving Repr

/-- A closure (`Closure`): a captured rigid environment and a term. -/
inductive Closure where
  | mk (rigidExprs : List Value) (term : Term)
deriving Repr

/-- A telescope (`Telescope`): a captured rigid environment, the
`apply_repr` flag, and the sequence of terms. -/
inductive Telescope where
  | mk (rigidExprs : List Value) (applyRepr : Bool) (terms : List Term)
deriving Repr

/-- The branches of a single-level constant match (`Branches`). -/
inductive Branches where
  | mk (rigidExprs : List Value) (patternBranches : List (ConstLit × Term))
      (defaultExpr : Option Term)
deriving Repr

end

namespace Closure

/-- `Closure::new`. -/
def new (rigidExprs : List Value) (term : Term) : Closure := .mk rigidExprs term

def rigidExprs : Closure → List Value
  | .mk e _ => e

def term : Closure → Term
  | .mk _ t => t

end Closure

namespace Telescope

/-- `Telescope::new`: the `apply_repr` flag starts out unset. -/
def new (rigidExprs : List Value) (terms : List Term) : Telescope :=
  .mk rigidExprs false terms

def rigidExprs : Telescope → List Value
  | .mk e _ _ => e

def applyReprFlag : Telescope → Bool
  | .mk _ b _ => b

def terms : Telescope → List Term
  | .mk _ _ ts => ts

/-- `Telescope::apply_repr`: set the `apply_repr` flag (the debug
assertion that the flag was previously unset is a debug-build-only
check and is not modelled). -/
def applyRepr : Telescope → Telescope
  | .mk e _ ts => .mk e true ts

/-- `Telescope::len`. -/
def len (t : Telescope) : Nat := t.terms.length

end Telescope

namespace Branches

def rigidExprs : Branches → List Value
  | .mk e _ _ => e

def patternBranches : Branches → List (ConstLit × Term)
  | .mk _ bs _ => bs

def defaultExpr : Branches → Option Term
  | .mk _ _ d => d

end Branches

/-- `Value::prim`: a primitive applied to a list of inputs, as a stuck
value whose spine wraps each input in `Elim::FunApp`. -/
def Value.primApp (p : Prim) (inputs : List Value) : Value :=
  .stuck (.prim p) (inputs.map Elim.funApp)

/-- `Value::rigid_var`. -/
def Value.rigidVar (global : Nat) : Value := .stuck (.rigidVar global) []

/-- `Value::flexible_var`. -/
def Value.flexibleVar (global : Nat) : Value := .stuck (.flexibleVar global) []

/-- Match an unsigned 8-bit constant (the `ConstLit::U8(x, style)` pattern). -/
def ConstLit.matchU8 : ConstLit → Option (Nat × UIntStyle)
  | .u8 x s => some (x, s)
  | _ => none

/-- Match an unsigned 16-bit constant. -/
def ConstLit.matchU16 : ConstLit → Option (Nat × UIntStyle)
  | .u16 x s => some (x, s)
  | _ => none

/-- Match an unsigned 32-bit constant. -/
def ConstLit.matchU32 : ConstLit → Option (Nat × UIntStyle)
  | .u32 x s => some (x, s)
  | _ => none

/-- Match an unsigned 64-bit constant. -/
def ConstLit.matchU64 : ConstLit → Option (Nat × UIntStyle)
  | .u64 x s => some (x, s)
  | _ => none

/-- Match a signed 8-bit constant. -/
def ConstLit.matchS8 : ConstLit → Option Int
  | .s8 x => some x
  | _ => none

/-- Match a signed 16-bit constant. -/
def ConstLit.matchS16 : ConstLit → Option Int
  | .s16 x => some x
  | _ => none

/-- Match a signed 32-bit constant. -/
def ConstLit.matchS32 : ConstLit → Option Int
  | .s32 x => some x
  | _ => none

/-- Match a signed 64-bit constant. -/
def ConstLit.matchS64 : ConstLit → Option Int
  | .s64 x => some x
  | _ => none

/-- Match a position constant. -/
def ConstLit.matchPos : ConstLit → Option Nat
  | .pos x => some x
  | _ => none

/-! ## Semantics engine (`fathom/src/core/semantics.rs`)

Rust panics (`panic_any(Error::...)`) are embedded as `none`.  Because the
evaluator, the eliminators and conversion checking are mutually recursive
and need not terminate on ill-typed input, every function takes a fuel
parameter; `none` also results when the fuel runs out.  A flexible
(metavariable) environment `flex` is threaded everywhere, standing for the
`SliceEnv<Option<ArcValue>>` of the Rust contexts. -/

namespace Semantics

/-- The metavariable solution environment carried by every context. -/
abbrev FlexEnv := List (Option Value)

/-- `u8`/`u16`/`u32`/`u64` `checked_add` with maximum value `max`:
`none` on overflow. -/
def uCheckedAdd (max x y : Nat) : Option Nat :=
  if x + y ≤ max then some (x + y) else none

/-- Unsigned `checked_sub`: `none` on underflow. -/
def uCheckedSub (x y : Nat) : Option Nat :=
  if y ≤ x then some (x - y) else none

/-- Unsigned `checked_mul` with maximum value `max`: `none` on overflow. -/
def uCheckedMul (max x y : Nat) : Option Nat :=
  if x * y ≤ max then some (x * y) else none

/-- Unsigned `checked_div`: `none` exactly on division by zero. -/
def uCheckedDiv (x y : Nat) : Option Nat :=
  if y = 0 then none else some (x / y)

/-- Unsigned `checked_shl` on a `bits`-wide integer: `none` exactly when
the shift amount is at least `bits`; otherwise the shifted-out high bits
are discarded (the result is reduced modulo `2 ^ bits`). -/
def uCheckedShl (bits x s : Nat) : Option Nat :=
  if s < bits then some ((x * 2 ^ s) % 2 ^ bits) else none

/-- Unsigned `checked_shr` on a `bits`-wide integer: `none` exactly when
the shift amount is at least `bits`. -/
def uCheckedShr (bits x s : Nat) : Option Nat :=
  if s < bits then some (x / 2 ^ s) else none

/-- Unsigned bitwise `not` on a `bits`-wide integer (for `x < 2 ^ bits`
this is the complement). -/
def uNot (bits x : Nat) : Nat := 2 ^ bits - 1 - x

/-- Signed `checked_neg` on an integer type with minimum value `min`:
`none` exactly when `x = min`. -/
def iCheckedNeg (min x : Int) : Option Int :=
  if x = min then none else some (-x)

/-- Signed `checked_add` on the range `[min, max]`: `none` on overflow. -/
def iCheckedAdd (min max x y : Int) : Option Int :=
  if min ≤ x + y ∧ x + y ≤ max then some (x + y) else none

/-- Signed `checked_sub` on the range `[min, max]`: `none` on overflow. -/
def iCheckedSub (min max x y : Int) : Option Int :=
  if min ≤ x - y ∧ x - y ≤ max then some (x - y) else none

/-- Signed `checked_mul` on the range `[min, max]`: `none` on overflow. -/
def iCheckedMul (min max x y : Int) : Option Int :=
  if min ≤ x * y ∧ x * y ≤ max then some (x * y) else none

/-- Signed `checked_div`: `none` on division by zero and on the sole
overflowing case `min / -1`; Rust's `/` truncates towards zero
(`Int.div`). -/
def iCheckedDiv (min x y : Int) : Option Int :=
  if y = 0 then none
  else if x = min ∧ y = -1 then none
  else some (Int.tdiv x y)

/-- `ElimContext::record_proj`: project a field out of a record literal
(beta-reduction), extend the spine of a stuck value, or panic. -/
def recordProjValue (headExpr : Value) (label : StringId) : Option Value :=
  match headExpr with
  | .recordLit labels exprs =>
      match labels.findIdx? (fun l => l = label) with
      | some index => exprs.get? index
      | none => none
  | .stuck head spine => some (.stuck head (spine ++ [.recordProj label]))
  | _ => none

/-- The result of `ElimContext::split_branches` (`SplitBranches`): the
constructors correspond to `Branch`, `Default` and `None`. -/
inductive SplitBranchesResult where
  | branch (c : ConstLit) (outputExpr : Value) (rest : Branches)
  | defaultClosure (cl : Closure)
  | noMore
deriving Repr

/-! The `const_step!` macro expansions in `prim_step` share a common
shape: the spine must be exactly the primitive's arguments, each a
matching constant literal; otherwise the step yields no reduction
(`none` here, the application stays stuck).  The helpers below factor
that shape per argument signature. -/

/-- A one-constant-argument step. -/
def stepConst1 (f : ConstLit → Option ConstLit) : List Elim → Option Value
  | [.funApp (.constLit x)] => (f x).map Value.constLit
  | _ => none

/-- A two-constant-argument step. -/
def stepConst2 (f : ConstLit → ConstLit → Option ConstLit) : List Elim → Option Value
  | [.funApp (.constLit x), .funApp (.constLit y)] => (f x y).map Value.constLit
  | _ => none

/-- An unsigned comparison step (styles ignored, boolean result). -/
def stepUCmp (m : ConstLit → Option (Nat × UIntStyle)) (f : Nat → Nat → Bool) :
    List Elim → Option Value
  | [.funApp (.constLit x), .funApp (.constLit y)] => do
      let (a, _) ← m x
      let (b, _) ← m y
      some (.constLit (.bool (f a b)))
  | _ => none

/-- An unsigned arithmetic step: both operands of the same width, result
style `UIntStyle::merge` of the operand styles, partial result. -/
def stepUArith (m : ConstLit → Option (Nat × UIntStyle)) (mk : Nat → UIntStyle → ConstLit)
    (f : Nat → Nat → Option Nat) : List Elim → Option Value
  | [.funApp (.constLit x), .funApp (.constLit y)] => do
      let (a, sa) ← m x
      let (b, sb) ← m y
      let r ← f a b
      some (.constLit (mk r (UIntStyle.merge sa sb)))
  | _ => none

/-- An unsigned shift step: the shift amount is always a `u8`, the result
keeps the left operand's style. -/
def stepUShift (m : ConstLit → Option (Nat × UIntStyle)) (mk : Nat → UIntStyle → ConstLit)
    (f : Nat → Nat → Option Nat) : List Elim → Option Value
  | [.funApp (.constLit x), .funApp (.constLit y)] => do
      let (a, sa) ← m x
      let (b, _) ← ConstLit.matchU8 y
      let r ← f a b
      some (.constLit (mk r sa))
  | _ => none

/-- A signed comparison step. -/
def stepSCmp (m : ConstLit → Option Int) (f : Int → Int → Bool) : List Elim → Option Value
  | [.funApp (.constLit x), .funApp (.constLit y)] => do
      let a ← m x
      let b ← m y
      some (.constLit (.bool (f a b)))
  | _ => none

/-- A one-argument signed step (`checked_neg`). -/
def stepS1 (m : ConstLit → Option Int) (mk : Int → ConstLit) (f : Int → Option Int) :
    List Elim → Option Value
  | [.funApp (.constLit x)] => do
      let a ← m x
      let r ← f a
      some (.constLit (mk r))
  | _ => none

/-- A two-argument signed arithmetic step. -/
def stepSArith (m : ConstLit → Option Int) (mk : Int → ConstLit) (f : Int → Int → Option Int) :
    List Elim → Option Value
  | [.funApp (.constLit x), .funApp (.constLit y)] => do
      let a ← m x
      let b ← m y
      let r ← f a b
      some (.constLit (mk r))
  | _ => none

/-- A `Pos + Un` step: `u64::checked_add` of a position and an unsigned
integer widened to `u64`. -/
def stepPosAdd (m : ConstLit → Option (Nat × UIntStyle)) : List Elim → Option Value
  | [.funApp (.constLit x), .funApp (.constLit y)] => do
      let a ← ConstLit.matchPos x
      let (b, _) ← m y
      let r ← uCheckedAdd 18446744073709551615 a b
      some (.constLit (.pos r))
  | _ => none

mutual

/-- `EvalContext::eval`: evaluate a term to a weak-head-normal value under
a rigid environment `env`. -/
def eval : FlexEnv → Nat → List Value → Term → Option Value
  | _, 0, _, _ => none
  | flex, fuel + 1, env, t =>
    match t with
    | .rigidVar v => Env.getLocal env v
    | .flexibleVar v =>
        match Env.getGlobal flex v with
        | some (some value) => some value
        | some none => some (Value.flexibleVar v)
        | none => none
    | .flexibleInsertion v infos => do
        let headExpr ← eval flex fuel env (.flexibleVar v)
        flexInsertApps flex fuel headExpr (infos.zip env)
    | .ann expr _ => eval flex fuel env expr
    | .lett _ _ defExpr outputExpr => do
        let d ← eval flex fuel env defExpr
        eval flex fuel (env ++ [d]) outputExpr
    | .universe => some .universe
    | .funType inputName inputType outputType => do
        let i ← eval flex fuel env inputType
        some (.funType inputName i (Closure.new env outputType))
    | .funLit inputName outputExpr => some (.funLit inputName (Closure.new env outputExpr))
    | .funApp headExpr inputExpr => do
        let h ← eval flex fuel env headExpr
        let i ← eval flex fuel env inputExpr
        funApp flex fuel h i
    | .recordType labels types => some (.recordType labels (Telescope.new env types))
    | .recordLit labels exprs => do
        let vs ← evalList flex fuel env exprs
        some (.recordLit labels vs)
    | .recordProj headExpr label => do
        let h ← eval flex fuel env headExpr
        recordProjValue h label
    | .arrayLit elemExprs => do
        let vs ← evalList flex fuel env elemExprs
        some (.arrayLit vs)
    | .formatRecord labels formats => some (.formatRecord labels (Telescope.new env formats))
    | .formatOverlap labels formats => some (.formatOverlap labels (Telescope.new env formats))
    | .prim p => some (Value.primApp p [])
    | .constLit c => some (.constLit c)
    | .constMatch headExpr branches defaultExpr => do
        let h ← eval flex fuel env headExpr
        constMatchValue flex fuel h (Branches.mk env branches defaultExpr)

/-- Evaluate a list of terms left to right (the `.map(|e| self.eval(e))`
collections in `eval`). -/
def evalList : FlexEnv → Nat → List Value → List Term → Option (List Value)
  | _, 0, _, _ => none
  | _, _ + 1, _, [] => some []
  | flex, fuel + 1, env, t :: ts => do
      let v ← eval flex fuel env t
      let vs ← evalList flex fuel env ts
      some (v :: vs)

/-- The `FlexibleInsertion` fold in `eval`: apply a head expression to
each rigid entry tagged `Parameter`, skipping entries tagged
`Definition`. -/
def flexInsertApps : FlexEnv → Nat → Value → List (EntryInfo × Value) → Option Value
  | _, 0, _, _ => none
  | _, _ + 1, headExpr, [] => some headExpr
  | flex, fuel + 1, headExpr, (info, expr) :: rest =>
      match info with
      | .definition => flexInsertApps flex fuel headExpr rest
      | .parameter => do
          let h ← funApp flex fuel headExpr expr
          flexInsertApps flex fuel h rest

/-- `ElimContext::apply_closure`: push the value and evaluate the closed
term. -/
def applyClosure : FlexEnv → Nat → Closure → Value → Option Value
  | _, 0, _, _ => none
  | flex, fuel + 1, cl, value => eval flex fuel (cl.rigidExprs ++ [value]) cl.term

/-- `ElimContext::fun_app`: beta-reduce a function literal, or extend the
spine of a stuck value, running a primitive step when the head is a
primitive; anything else panics (`InvalidFunctionApp`). -/
def funApp : FlexEnv → Nat → Value → Value → Option Value
  | _, 0, _, _ => none
  | flex, fuel + 1, headExpr, inputExpr =>
    match headExpr with
    | .funLit _ outputExpr => applyClosure flex fuel outputExpr inputExpr
    | .stuck head spine =>
        let spine' := spine ++ [.funApp inputExpr]
        match head with
        | .prim p =>
            match primStep flex fuel p spine' with
            | some (some v) => some v
            | some none => some (.stuck head spine')
            | none => none
        | _ => some (.stuck head spine')
    | _ => none

/-- `ElimContext::const_match`: match a constant against the branches in
order, fall back to the default expression evaluated with the scrutinee
pushed onto the captured environment, extend the spine of a stuck value,
or panic (`InvalidConstMatch` / `MissingConstDefault`). -/
def constMatchValue : FlexEnv → Nat → Value → Branches → Option Value
  | _, 0, _, _ => none
  | flex, fuel + 1, headExpr, branches =>
    match headExpr with
    | .constLit c =>
        match branches.patternBranches.find? (fun b => b.1 = c) with
        | some (_, outputExpr) => eval flex fuel branches.rigidExprs outputExpr
        | none =>
            match branches.defaultExpr with
            | some defaultExpr =>
                eval flex fuel (branches.rigidExprs ++ [headExpr]) defaultExpr
            | none => none
    | .stuck head spine => some (.stuck head (spine ++ [.constMatch branches]))
    | _ => none

/-- `ElimContext::apply_spine`: fold the pending eliminations over a head
expression. -/
def applySpine : FlexEnv → Nat → Value → List Elim → Option Value
  | _, 0, _, _ => none
  | _, _ + 1, headExpr, [] => some headExpr
  | flex, fuel + 1, headExpr, e :: rest => do
      let h ←
        match e with
        | .funApp inputExpr => funApp flex fuel headExpr inputExpr
        | .recordProj label => recordProjValue headExpr label
        | .constMatch branches => constMatchValue flex fuel headExpr branches
      applySpine flex fuel h rest

/-- `ElimContext::force`: repeatedly resolve solved flexible heads,
re-applying the pending spine each time. -/
def force : FlexEnv → Nat → Value → Option Value
  | _, 0, _ => none
  | flex, fuel + 1, value =>
    match value with
    | .stuck (.flexibleVar var) spine =>
        match Env.getGlobal flex var with
        | some (some expr) => do
            let v ← applySpine flex fuel expr spine
            force flex fuel v
        | some none => some value
        | none => none
    | _ => some value

/-- `ElimContext::split_telescope`: `some none` when the telescope is
empty, otherwise the first value (wrapped in `Repr` when the `apply_repr`
flag is set) together with the continuation that pushes the previous
value and keeps the remaining terms. -/
def splitTelescope :
    FlexEnv → Nat → Telescope → Option (Option (Value × (Value → Telescope)))
  | _, 0, _ => none
  | flex, fuel + 1, t =>
    match t.terms with
    | [] => some none
    | term :: rest =>
        let value :=
          if t.applyReprFlag then (eval flex fuel t.rigidExprs term).bind (formatRepr flex fuel)
          else eval flex fuel t.rigidExprs term
        match value with
        | some v =>
            some (some (v, fun prev => Telescope.mk (t.rigidExprs ++ [prev]) t.applyReprFlag rest))
        | none => none

/-- `ElimContext::split_branches`. -/
def splitBranches : FlexEnv → Nat → Branches → Option SplitBranchesResult
  | _, 0, _ => none
  | flex, fuel + 1, b =>
    match b.patternBranches with
    | (c, outputExpr) :: rest => do
        let v ← eval flex fuel b.rigidExprs outputExpr
        some (.branch c v (Branches.mk b.rigidExprs rest b.defaultExpr))
    | [] =>
        match b.defaultExpr with
        | some d => some (.defaultClosure (Closure.new b.rigidExprs d))
        | none => some .noMore

/-- `ElimContext::format_repr`: the representation type of a format
description.  Panics (`InvalidFormatRepr`) on a non-format value. -/
def formatRepr : FlexEnv → Nat → Value → Option Value
  | _, 0, _ => none
  | flex, fuel + 1, format =>
    match format with
    | .formatRecord labels formats => some (.recordType labels formats.applyRepr)
    | .formatOverlap labels formats => some (.recordType labels formats.applyRepr)
    | .stuck (.prim p) spine =>
        match p, spine with
        | .FormatU8, [] => some (Value.primApp .U8Type [])
        | .FormatU16Be, [] => some (Value.primApp .U16Type [])
        | .FormatU16Le, [] => some (Value.primApp .U16Type [])
        | .FormatU32Be, [] => some (Value.primApp .U32Type [])
        | .FormatU32Le, [] => some (Value.primApp .U32Type [])
        | .FormatU64Be, [] => some (Value.primApp .U64Type [])
        | .FormatU64Le, [] => some (Value.primApp .U64Type [])
        | .FormatS8, [] => some (Value.primApp .S8Type [])
        | .FormatS16Be, [] => some (Value.primApp .S16Type [])
        | .FormatS16Le, [] => some (Value.primApp .S16Type [])
        | .FormatS32Be, [] => some (Value.primApp .S32Type [])
        | .FormatS32Le, [] => some (Value.primApp .S32Type [])
        | .FormatS64Be, [] => some (Value.primApp .S64Type [])
        | .FormatS64Le, [] => some (Value.primApp .S64Type [])
        | .FormatF32Be, [] => some (Value.primApp .F32Type [])
        | .FormatF32Le, [] => some (Value.primApp .F32Type [])
        | .FormatF64Be, [] => some (Value.primApp .F64Type [])
        | .FormatF64Le, [] => some (Value.primApp .F64Type [])
        | .FormatArray8, [.funApp len, .funApp elem] => do
            let r ← formatRepr flex fuel elem
            some (Value.primApp .Array8Type [len, r])
        | .FormatArray16, [.funApp len, .funApp elem] => do
            let r ← formatRepr flex fuel elem
            some (Value.primApp .Array16Type [len, r])
        | .FormatArray32, [.funApp len, .funApp elem] => do
            let r ← formatRepr flex fuel elem
            some (Value.primApp .Array32Type [len, r])
        | .FormatArray64, [.funApp len, .funApp elem] => do
            let r ← formatRepr flex fuel elem
            some (Value.primApp .Array64Type [len, r])
        | .FormatLink, [.funApp _, .funApp elem] => some (Value.primApp .RefType [elem])
        | .FormatDeref, [.funApp elem, .funApp _] => formatRepr flex fuel elem
        | .FormatStreamPos, [] => some (Value.primApp .PosType [])
        | .FormatSucceed, [.funApp elem, _] => some elem
        | .FormatFail, [] => some (Value.primApp .VoidType [])
        | .FormatUnwrap, [.funApp elem, _] => some elem
        | .ReportedError, [] => some (Value.primApp .ReportedError [])
        | _, _ => some (Value.primApp .FormatRepr [format])
    | .stuck _ _ => some (Value.primApp .FormatRepr [format])
    | _ => none

/-- The loop body of the `Array*Find` primitive steps: test the predicate
on each element; the first `true` yields `some(elem)`, a non-boolean
predicate result aborts the reduction (`some none` = stay stuck). -/
def arrayFindLoop : FlexEnv → Nat → Value → List Value → Option (Option Value)
  | _, 0, _, _ => none
  | _, _ + 1, _, [] => some (some (Value.primApp .OptionNone []))
  | flex, fuel + 1, pred, elem :: rest => do
      let r ← funApp flex fuel pred elem
      match r with
      | .constLit (.bool true) => some (some (Value.primApp .OptionSome [elem]))
      | .constLit (.bool false) => arrayFindLoop flex fuel pred rest
      | _ => some none

/-- `prim_step` composed with running the step on the spine: `some (some v)`
when the primitive reduces to `v`, `some none` when no reduction applies
(the application stays stuck, including every primitive with no declared
step), `none` on a panic inside a step or on fuel exhaustion. -/
def primStep : FlexEnv → Nat → Prim → List Elim → Option (Option Value)
  | _, 0, _, _ => none
  | flex, fuel + 1, p, spine =>
    match p with
    | .FormatRepr =>
        match spine with
        | [.funApp format] =>
            match formatRepr flex fuel format with
            | some r => some (some r)
            | none => none
        | _ => some none
    | .BoolEq => some (stepConst2 (fun x y =>
        match x, y with
        | .bool a, .bool b => some (.bool (a = b))
        | _, _ => none) spine)
    | .BoolNeq => some (stepConst2 (fun x y =>
        match x, y with
        | .bool a, .bool b => some (.bool (¬(a = b)))
        | _, _ => none) spine)
    | .BoolNot => some (stepConst1 (fun x =>
        match x with
        | .bool a => some (.bool (!a))
        | _ => none) spine)
    | .BoolAnd => some (stepConst2 (fun x y =>
        match x, y with
        | .bool a, .bool b => some (.bool (a && b))
        | _, _ => none) spine)
    | .BoolOr => some (stepConst2 (fun x y =>
        match x, y with
        | .bool a, .bool b => some (.bool (a || b))
        | _, _ => none) spine)
    | .BoolXor => some (stepConst2 (fun x y =>
        match x, y with
        | .bool a, .bool b => some (.bool (xor a b))
        | _, _ => none) spine)
    | .U8Eq => some (stepUCmp ConstLit.matchU8 (fun a b => a = b) spine)
    | .U8Neq => some (stepUCmp ConstLit.matchU8 (fun a b => ¬(a = b)) spine)
    | .U8Gt => some (stepUCmp ConstLit.matchU8 (fun a b => b < a) spine)
    | .U8Lt => some (stepUCmp ConstLit.matchU8 (fun a b => a < b) spine)
    | .U8Gte => some (stepUCmp ConstLit.matchU8 (fun a b => b ≤ a) spine)
    | .U8Lte => some (stepUCmp ConstLit.matchU8 (fun a b => a ≤ b) spine)
    | .U8Add => some (stepUArith ConstLit.matchU8 ConstLit.u8 (uCheckedAdd 255) spine)
    | .U8Sub => some (stepUArith ConstLit.matchU8 ConstLit.u8 uCheckedSub spine)
    | .U8Mul => some (stepUArith ConstLit.matchU8 ConstLit.u8 (uCheckedMul 255) spine)
    | .U8Div => some (stepUArith ConstLit.matchU8 ConstLit.u8 uCheckedDiv spine)
    | .U8Not => some (stepConst1 (fun x =>
        match x with
        | .u8 a style => some (.u8 (uNot 8 a) style)
        | _ => none) spine)
    | .U8Shl => some (stepUShift ConstLit.matchU8 ConstLit.u8 (uCheckedShl 8) spine)
    | .U8Shr => some (stepUShift ConstLit.matchU8 ConstLit.u8 (uCheckedShr 8) spine)
    | .U8And => some (stepUArith ConstLit.matchU8 ConstLit.u8 (fun a b => some (a.land b)) spine)
    | .U8Or => some (stepUArith ConstLit.matchU8 ConstLit.u8 (fun a b => some (a.lor b)) spine)
    | .U8Xor => some (stepUArith ConstLit.matchU8 ConstLit.u8 (fun a b => some (a.xor b)) spine)
    | .U16Eq => some (stepUCmp ConstLit.matchU16 (fun a b => a = b) spine)
    | .U16Neq => some (stepUCmp ConstLit.matchU16 (fun a b => ¬(a = b)) spine)
    | .U16Gt => some (stepUCmp ConstLit.matchU16 (fun a b => b < a) spine)
    | .U16Lt => some (stepUCmp ConstLit.matchU16 (fun a b => a < b) spine)
    | .U16Gte => some (stepUCmp ConstLit.matchU16 (fun a b => b ≤ a) spine)
    | .U16Lte => some (stepUCmp ConstLit.matchU16 (fun a b => a ≤ b) spine)
    | .U16Add => some (stepUArith ConstLit.matchU16 ConstLit.u16 (uCheckedAdd 65535) spine)
    | .U16Sub => some (stepUArith ConstLit.matchU16 ConstLit.u16 uCheckedSub spine)
    | .U16Mul => some (stepUArith ConstLit.matchU16 ConstLit.u16 (uCheckedMul 65535) spine)
    | .U16Div => some (stepUArith ConstLit.matchU16 ConstLit.u16 uCheckedDiv spine)
    | .U16Not => some (stepConst1 (fun x =>
        match x with
        | .u16 a _ => some (.u16 (uNot 16 a) .decimal)
        | _ => none) spine)
    | .U16Shl => some (stepUShift ConstLit.matchU16 ConstLit.u16 (uCheckedShl 16) spine)
    | .U16Shr => some (stepUShift ConstLit.matchU16 ConstLit.u16 (uCheckedShr 16) spine)
    | .U16And => some (stepUArith ConstLit.matchU16 ConstLit.u16 (fun a b => some (a.land b)) spine)
    | .U16Or => some (stepUArith ConstLit.matchU16 ConstLit.u16 (fun a b => some (a.lor b)) spine)
    | .U16Xor => some (stepUArith ConstLit.matchU16 ConstLit.u16 (fun a b => some (a.xor b)) spine)
    | .U32Eq => some (stepUCmp ConstLit.matchU32 (fun a b => a = b) spine)
    | .U32Neq => some (stepUCmp ConstLit.matchU32 (fun a b => ¬(a = b)) spine)
    | .U32Gt => some (stepUCmp ConstLit.matchU32 (fun a b => b < a) spine)
    | .U32Lt => some (stepUCmp ConstLit.matchU32 (fun a b => a < b) spine)
    | .U32Gte => some (stepUCmp ConstLit.matchU32 (fun a b => b ≤ a) spine)
    | .U32Lte => some (stepUCmp ConstLit.matchU32 (fun a b => a ≤ b) spine)
    | .U32Add => some (stepUArith ConstLit.matchU32 ConstLit.u32 (uCheckedAdd 4294967295) spine)
    | .U32Sub => some (stepUArith ConstLit.matchU32 ConstLit.u32 uCheckedSub spine)
    | .U32Mul => some (stepUArith ConstLit.matchU32 ConstLit.u32 (uCheckedMul 4294967295) spine)
    | .U32Div => some (stepUArith ConstLit.matchU32 ConstLit.u32 uCheckedDiv spine)
    | .U32Not => some (stepConst1 (fun x =>
        match x with
        | .u32 a _ => some (.u32 (uNot 32 a) .decimal)
        | _ => none) spine)
    | .U32Shl => some (stepUShift ConstLit.matchU32 ConstLit.u32 (uCheckedShl 32) spine)
    | .U32Shr => some (stepUShift ConstLit.matchU32 ConstLit.u32 (uCheckedShr 32) spine)
    | .U32And => some (stepUArith ConstLit.matchU32 ConstLit.u32 (fun a b => some (a.land b)) spine)
    | .U32Or => some (stepUArith ConstLit.matchU32 ConstLit.u32 (fun a b => some (a.lor b)) spine)
    | .U32Xor => some (stepUArith ConstLit.matchU32 ConstLit.u32 (fun a b => some (a.xor b)) spine)
    | .U64Eq => some (stepUCmp ConstLit.matchU64 (fun a b => a = b) spine)
    | .U64Neq => some (stepUCmp ConstLit.matchU64 (fun a b => ¬(a = b)) spine)
    | .U64Gt => some (stepUCmp ConstLit.matchU64 (fun a b => b < a) spine)
    | .U64Lt => some (stepUCmp ConstLit.matchU64 (fun a b => a < b) spine)
    | .U64Gte => some (stepUCmp ConstLit.matchU64 (fun a b => b ≤ a) spine)
    | .U64Lte => some (stepUCmp ConstLit.matchU64 (fun a b => a ≤ b) spine)
    | .U64Add =>
        some (stepUArith ConstLit.matchU64 ConstLit.u64 (uCheckedAdd 18446744073709551615) spine)
    | .U64Sub => some (stepUArith ConstLit.matchU64 ConstLit.u64 uCheckedSub spine)
    | .U64Mul =>
        some (stepUArith ConstLit.matchU64 ConstLit.u64 (uCheckedMul 18446744073709551615) spine)
    | .U64Div => some (stepUArith ConstLit.matchU64 ConstLit.u64 uCheckedDiv spine)
    | .U64Not => some (stepConst1 (fun x =>
        match x with
        | .u64 a _ => some (.u64 (uNot 64 a) .decimal)
        | _ => none) spine)
    | .U64Shl => some (stepUShift ConstLit.matchU64 ConstLit.u64 (uCheckedShl 64) spine)
    | .U64Shr => some (stepUShift ConstLit.matchU64 ConstLit.u64 (uCheckedShr 64) spine)
    | .U64And => some (stepUArith ConstLit.matchU64 ConstLit.u64 (fun a b => some (a.land b)) spine)
    | .U64Or => some (stepUArith ConstLit.matchU64 ConstLit.u64 (fun a b => some (a.lor b)) spine)
    | .U64Xor => some (stepUArith ConstLit.matchU64 ConstLit.u64 (fun a b => some (a.xor b)) spine)
    | .S8Eq => some (stepSCmp ConstLit.matchS8 (fun a b => a = b) spine)
    | .S8Neq => some (stepSCmp ConstLit.matchS8 (fun a b => ¬(a = b)) spine)
    | .S8Gt => some (stepSCmp ConstLit.matchS8 (fun a b => b < a) spine)
    | .S8Lt => some (stepSCmp ConstLit.matchS8 (fun a b => a < b) spine)
    | .S8Gte => some (stepSCmp ConstLit.matchS8 (fun a b => b ≤ a) spine)
    | .S8Lte => some (stepSCmp ConstLit.matchS8 (fun a b => a ≤ b) spine)
    | .S8Neg => some (stepS1 ConstLit.matchS8 ConstLit.s8 (iCheckedNeg (-128)) spine)
    | .S8Add => some (stepSArith ConstLit.matchS8 ConstLit.s8 (iCheckedAdd (-128) 127) spine)
    | .S8Sub => some (stepSArith ConstLit.matchS8 ConstLit.s8 (iCheckedSub (-128) 127) spine)
    | .S8Mul => some (stepSArith ConstLit.matchS8 ConstLit.s8 (iCheckedMul (-128) 127) spine)
    | .S8Div => some (stepSArith ConstLit.matchS8 ConstLit.s8 (iCheckedDiv (-128)) spine)
    | .S8Abs =>
        match spine with
        | [.funApp (.constLit (.s8 a))] =>
            if a = -128 then none else some (some (.constLit (.s8 |a|)))
        | _ => some none
    | .S8UAbs => some (stepConst1 (fun x =>
        match x with
        | .s8 a => some (.u8 a.natAbs .decimal)
        | _ => none) spine)
    | .S16Eq => some (stepSCmp ConstLit.matchS16 (fun a b => a = b) spine)
    | .S16Neq => some (stepSCmp ConstLit.matchS16 (fun a b => ¬(a = b)) spine)
    | .S16Gt => some (stepSCmp ConstLit.matchS16 (fun a b => b < a) spine)
    | .S16Lt => some (stepSCmp ConstLit.matchS16 (fun a b => a < b) spine)
    | .S16Gte => some (stepSCmp ConstLit.matchS16 (fun a b => b ≤ a) spine)
    | .S16Lte => some (stepSCmp ConstLit.matchS16 (fun a b => a ≤ b) spine)
    | .S16Neg => some (stepS1 ConstLit.matchS16 ConstLit.s16 (iCheckedNeg (-32768)) spine)
    | .S16Add => some (stepSArith ConstLit.matchS16 ConstLit.s16 (iCheckedAdd (-32768) 32767) spine)
    | .S16Sub => some (stepSArith ConstLit.matchS16 ConstLit.s16 (iCheckedSub (-32768) 32767) spine)
    | .S16Mul => some (stepSArith ConstLit.matchS16 ConstLit.s16 (iCheckedMul (-32768) 32767) spine)
    | .S16Div => some (stepSArith ConstLit.matchS16 ConstLit.s16 (iCheckedDiv (-32768)) spine)
    | .S16Abs =>
        match spine with
        | [.funApp (.constLit (.s16 a))] =>
            if a = -32768 then none else some (some (.constLit (.s16 |a|)))
        | _ => some none
    | .S16UAbs => some (stepConst1 (fun x =>
        match x with
        | .s16 a => some (.u16 a.natAbs .decimal)
        | _ => none) spine)
    | .S32Eq => some (stepSCmp ConstLit.matchS32 (fun a b => a = b) spine)
    | .S32Neq => some (stepSCmp ConstLit.matchS32 (fun a b => ¬(a = b)) spine)
    | .S32Gt => some (stepSCmp ConstLit.matchS32 (fun a b => b < a) spine)
    | .S32Lt => some (stepSCmp ConstLit.matchS32 (fun a b => a < b) spine)
    | .S32Gte => some (stepSCmp ConstLit.matchS32 (fun a b => b ≤ a) spine)
    | .S32Lte => some (stepSCmp ConstLit.matchS32 (fun a b => a ≤ b) spine)
    | .S32Neg => some (stepS1 ConstLit.matchS32 ConstLit.s32 (iCheckedNeg (-2147483648)) spine)
    | .S32Add =>
        some (stepSArith ConstLit.matchS32 ConstLit.s32 (iCheckedAdd (-2147483648) 2147483647) spine)
    | .S32Sub =>
        some (stepSArith ConstLit.matchS32 ConstLit.s32 (iCheckedSub (-2147483648) 2147483647) spine)
    | .S32Mul =>
        some (stepSArith ConstLit.matchS32 ConstLit.s32 (iCheckedMul (-2147483648) 2147483647) spine)
    | .S32Div => some (stepSArith ConstLit.matchS32 ConstLit.s32 (iCheckedDiv (-2147483648)) spine)
    | .S32Abs =>
        match spine with
        | [.funApp (.constLit (.s32 a))] =>
            if a = -2147483648 then none else some (some (.constLit (.s32 |a|)))
        | _ => some none
    | .S32UAbs => some (stepConst1 (fun x =>
        match x with
        | .s32 a => some (.u32 a.natAbs .decimal)
        | _ => none) spine)
    | .S64Eq => some (stepSCmp ConstLit.matchS64 (fun a b => a = b) spine)
    | .S64Neq => some (stepSCmp ConstLit.matchS64 (fun a b => ¬(a = b)) spine)
    | .S64Gt => some (stepSCmp ConstLit.matchS64 (fun a b => b < a) spine)
    | .S64Lt => some (stepSCmp ConstLit.matchS64 (fun a b => a < b) spine)
    | .S64Gte => some (stepSCmp ConstLit.matchS64 (fun a b => b ≤ a) spine)
    | .S64Lte => some (stepSCmp ConstLit.matchS64 (fun a b => a ≤ b) spine)
    | .S64Neg =>
        some (stepS1 ConstLit.matchS64 ConstLit.s64 (iCheckedNeg (-9223372036854775808)) spine)
    | .S64Add => some (stepSArith ConstLit.matchS64 ConstLit.s64
        (iCheckedAdd (-9223372036854775808) 9223372036854775807) spine)
    | .S64Sub => some (stepSArith ConstLit.matchS64 ConstLit.s64
        (iCheckedSub (-9223372036854775808) 9223372036854775807) spine)
    | .S64Mul => some (stepSArith ConstLit.matchS64 ConstLit.s64
        (iCheckedMul (-9223372036854775808) 9223372036854775807) spine)
    | .S64Div =>
        some (stepSArith ConstLit.matchS64 ConstLit.s64 (iCheckedDiv (-9223372036854775808)) spine)
    | .S64Abs =>
        match spine with
        | [.funApp (.constLit (.s64 a))] =>
            if a = -9223372036854775808 then none else some (some (.constLit (.s64 |a|)))
        | _ => some none
    | .S64UAbs => some (stepConst1 (fun x =>
        match x with
        | .s64 a => some (.u64 a.natAbs .decimal)
        | _ => none) spine)
    | .OptionFold =>
        match spine with
        | [.funApp _, .funApp _, .funApp onNone, .funApp onSome, .funApp opt] =>
            match opt with
            | .stuck (.prim .OptionSome) [.funApp value] =>
                match funApp flex fuel onSome value with
                | some v => some (some v)
                | none => none
            | .stuck (.prim .OptionNone) [] => some (some onNone)
            | _ => some none
        | _ => some none
    | .Array8Find | .Array16Find | .Array32Find | .Array64Find =>
        match spine with
        | [.funApp _, .funApp _, .funApp pred, .funApp array] =>
            match array with
            | .arrayLit elems => arrayFindLoop flex fuel pred elems
            | _ => some none
        | _ => some none
    | .PosAddU8 => some (stepPosAdd ConstLit.matchU8 spine)
    | .PosAddU16 => some (stepPosAdd ConstLit.matchU16 spine)
    | .PosAddU32 => some (stepPosAdd ConstLit.matchU32 spine)
    | .PosAddU64 => some (stepPosAdd ConstLit.matchU64 spine)
    | _ => some none

end

/-- The first arm of `ConversionContext::is_equal`: is this value stuck
with the `ReportedError` primitive at its head (any spine)? -/
def isReportedErrorValue : Value → Bool
  | .stuck (.prim .ReportedError) _ => true
  | _ => false

mutual

/-- `ConversionContext::is_equal`: conversion checking with η-laws.  The
parameter `n` is the rigid environment length (`rigid_exprs : EnvLen`).
`some b` embeds the boolean result; `none` embeds a panic inside an
eliminator or exhausted fuel. -/
def isEqual : FlexEnv → Nat → Nat → Value → Value → Option Bool
  | _, 0, _, _, _ => none
  | flex, fuel + 1, n, value0, value1 =>
    match force flex fuel value0, force flex fuel value1 with
    | some w0, some w1 =>
      if isReportedErrorValue w0 || isReportedErrorValue w1 then some true
      else
        match w0, w1 with
        | .stuck head0 spine0, .stuck head1 spine1 =>
            if head0 = head1 ∧ spine0.length = spine1.length then
              isEqualSpines flex fuel n spine0 spine1
            else some false
        | .universe, .universe => some true
        | .funType _ inputType0 outputType0, .funType _ inputType1 outputType1 =>
            match isEqual flex fuel n inputType0 inputType1 with
            | some true => isEqualClosures flex fuel n outputType0 outputType1
            | some false => some false
            | none => none
        | .funLit _ outputExpr0, .funLit _ outputExpr1 =>
            isEqualClosures flex fuel n outputExpr0 outputExpr1
        | .funLit _ outputExpr, _ => isEqualFunLit flex fuel n outputExpr w1
        | _, .funLit _ outputExpr => isEqualFunLit flex fuel n outputExpr w0
        | .recordType labels0 types0, .recordType labels1 types1 =>
            if labels0 = labels1 then isEqualTelescopes flex fuel n types0 types1
            else some false
        | .recordLit labels0 exprs0, .recordLit labels1 exprs1 =>
            if labels0 = labels1 then isEqualZip flex fuel n (exprs0.zip exprs1)
            else some false
        | .recordLit labels exprs, _ => isEqualRecordLit flex fuel n labels exprs w1
        | _, .recordLit labels exprs => isEqualRecordLit flex fuel n labels exprs w0
        | .arrayLit elemExprs0, .arrayLit elemExprs1 =>
            isEqualZip flex fuel n (elemExprs0.zip elemExprs1)
        | .formatRecord labels0 formats0, .formatRecord labels1 formats1 =>
            if labels0 = labels1 then isEqualTelescopes flex fuel n formats0 formats1
            else some false
        | .formatOverlap labels0 formats0, .formatOverlap labels1 formats1 =>
            if labels0 = labels1 then isEqualTelescopes flex fuel n formats0 formats1
            else some false
        | .constLit const0, .constLit const1 => some (const0 = const1)
        | _, _ => some false
    | _, _ => none

termination_by structural _ fuel _ _ _ => fuel

/-- The `Iterator::zip(spine0, spine1).all(..)` loop of the stuck-stuck
case of `is_equal` (the caller has already compared the lengths). -/
def isEqualSpines : FlexEnv → Nat → Nat → List Elim → List Elim → Option Bool
  | _, 0, _, _, _ => none
  | flex, fuel + 1, n, elim0 :: rest0, elim1 :: rest1 =>
      (match elim0, elim1 with
      | .funApp expr0, .funApp expr1 =>
          match isEqual flex fuel n expr0 expr1 with
          | some true => isEqualSpines flex fuel n rest0 rest1
          | some false => some false
          | none => none
      | .recordProj label0, .recordProj label1 =>
          if label0 = label1 then isEqualSpines flex fuel n rest0 rest1 else some false
      | .constMatch branches0, .constMatch branches1 =>
          match isEqualBranches flex fuel n branches0 branches1 with
          | some true => isEqualSpines flex fuel n rest0 rest1
          | some false => some false
          | none => none
      | _, _ => some false)
  | _, _ + 1, _, _, _ => some true

termination_by structural _ fuel _ _ _ => fuel

/-- A zipped `all(|(a, b)| is_equal(a, b))` loop (record-literal fields,
array elements). -/
def isEqualZip : FlexEnv → Nat → Nat → List (Value × Value) → Option Bool
  | _, 0, _, _ => none
  | _, _ + 1, _, [] => some true
  | flex, fuel + 1, n, (expr0, expr1) :: rest =>
      match isEqual flex fuel n expr0 expr1 with
      | some true => isEqualZip flex fuel n rest
      | some false => some false
      | none => none

termination_by structural _ fuel _ _ => fuel

/-- `ConversionContext::is_equal_closures`: apply both closures to a fresh
rigid variable and compare under the extended environment. -/
def isEqualClosures : FlexEnv → Nat → Nat → Closure → Closure → Option Bool
  | _, 0, _, _, _ => none
  | flex, fuel + 1, n, closure0, closure1 =>
      let var := Value.rigidVar n
      match applyClosure flex fuel closure0 var, applyClosure flex fuel closure1 var with
      | some v0, some v1 => isEqual flex fuel (n + 1) v0 v1
      | _, _ => none

termination_by structural _ fuel _ _ _ => fuel

/-- `ConversionContext::is_equal_telescopes`: compare the lengths, then
split both telescopes in lock-step. -/
def isEqualTelescopes : FlexEnv → Nat → Nat → Telescope → Telescope → Option Bool
  | _, 0, _, _, _ => none
  | flex, fuel + 1, n, telescope0, telescope1 =>
      if telescope0.len = telescope1.len then
        isEqualTelescopesLoop flex fuel n telescope0 telescope1
      else some false

termination_by structural _ fuel _ _ _ => fuel

/-- The `while let Some(..) = Option::zip(split, split)` loop of
`is_equal_telescopes`. -/
def isEqualTelescopesLoop : FlexEnv → Nat → Nat → Telescope → Telescope → Option Bool
  | _, 0, _, _, _ => none
  | flex, fuel + 1, n, telescope0, telescope1 =>
      match splitTelescope flex fuel telescope0, splitTelescope flex fuel telescope1 with
      | some (some (value0, next0)), some (some (value1, next1)) =>
          (match isEqual flex fuel n value0 value1 with
          | some true =>
              let var := Value.rigidVar n
              isEqualTelescopesLoop flex fuel (n + 1) (next0 var) (next1 var)
          | some false => some false
          | none => none)
      | some none, some _ => some true
      | some _, some none => some true
      | _, _ => none

termination_by structural _ fuel _ _ _ => fuel

/-- `ConversionContext::is_equal_branches`. -/
def isEqualBranches : FlexEnv → Nat → Nat → Branches → Branches → Option Bool
  | _, 0, _, _, _ => none
  | flex, fuel + 1, n, branches0, branches1 =>
      match splitBranches flex fuel branches0, splitBranches flex fuel branches1 with
      | some (.branch const0 outputExpr0 next0), some (.branch const1 outputExpr1 next1) =>
          if const0 = const1 then
            match isEqual flex fuel n outputExpr0 outputExpr1 with
            | some true => isEqualBranches flex fuel n next0 next1
            | some false => some false
            | none => none
          else some false
      | some (.defaultClosure default0), some (.defaultClosure default1) =>
          isEqualClosures flex fuel n default0 default1
      | some .noMore, some .noMore => some true
      | some _, some _ => some false
      | _, _ => none

termination_by structural _ fuel _ _ _ => fuel

/-- `ConversionContext::is_equal_fun_lit`: η for functions, applying the
other value to a fresh rigid variable. -/
def isEqualFunLit : FlexEnv → Nat → Nat → Closure → Value → Option Bool
  | _, 0, _, _, _ => none
  | flex, fuel + 1, n, outputExpr, value =>
      let var := Value.rigidVar n
      match funApp flex fuel value var with
      | some value' =>
          match applyClosure flex fuel outputExpr var with
          | some output => isEqual flex fuel (n + 1) output value'
          | none => none
      | none => none

termination_by structural _ fuel _ _ _ => fuel

/-- `ConversionContext::is_equal_record_lit`: η for records, comparing
each field expression with the projection of the other value. -/
def isEqualRecordLit : FlexEnv → Nat → Nat → List StringId → List Value → Value → Option Bool
  | _, 0, _, _, _, _ => none
  | flex, fuel + 1, n, label :: labels, expr :: exprs, value =>
      (match recordProjValue value label with
      | some fieldValue =>
          match isEqual flex fuel n expr fieldValue with
          | some true => isEqualRecordLit flex fuel n labels exprs value
          | some false => some false
          | none => none
      | none => none)
  | _, _ + 1, _, _, _, _ => some true

termination_by structural _ fuel _ _ _ _ => fuel

end

end Semantics

/-! ## Elaborator (`fathom/src/surface/elaboration.rs`)

The elaborator era of the sources shares the same value domain; its
`Const` enum coincides constructor-for-constructor with `ConstLit` and is
reused here.  Spans and pretty-printing are not modelled (the spec fixes
that evaluation and conversion ignore spans, and rendering is out of
scope); `Symbol`s are `StringId`s. -/

namespace Elab

/-- The reason why a metavariable was inserted (`MetaSource`), with file
ranges dropped. -/
inductive MetaSource where
  | implicitArg (name : Option StringId)
  | holeType (name : StringId)
  | holeExpr (name : StringId)
  | placeholderType
  | placeholderExpr
  | placeholderPatternType
  | namedPatternType (name : StringId)
  | matchExprType
  | reportedErrorType
deriving DecidableEq, Repr

/-- Modelled from the spec: the unification error kinds of §4.4
(`Mismatch`, `ScopeError`, `OccursCheck`, `Spine`); the unifier itself
(`surface/elaboration/unification.rs`) is not among the provided sources
and is treated as an oracle below. -/
inductive UnifyError where
  | mismatch
  | scopeError
  | occursCheck
  | spine
deriving DecidableEq, Repr

/-- Modelled from the spec: the diagnostic messages of §7 that the
elaboration functions embedded here can emit (`reporting.rs` is not among
the provided sources).  `failedToUnify` carries the error kind (the
pretty-printed found/expected types are rendering, out of scope);
`holeSolution` carries the solution value. -/
inductive Message where
  | failedToUnify (error : UnifyError)
  | unsolvedMetaVar (source : MetaSource)
  | holeSolution (name : StringId) (expr : Value)
  | unreachablePattern
  | nonExhaustiveMatchExpr
deriving Repr

/-- Modelled from the spec: `core::Term::error(span)` replaces an
offending node by an error term (§7); the error term is the
`ReportedError` primitive. -/
def Term.error : Term := .prim .ReportedError

/-- The guard of the first arm of `Context::coerce`: the synthesized type
is the `Format` universe (the `FormatType` primitive with an empty spine)
and the expected type is `Type` (`Universe`). -/
def isFormatToType : Value → Value → Bool
  | .stuck (.prim .FormatType) [], .universe => true
  | _, _ => false

/-- `Context::coerce`: force both types; coerce `Format` to `Type` by
wrapping the term in an application of the `FormatRepr` primitive;
otherwise unify the two types, keeping the term on success and replacing
it by an error term plus a `FailedToUnify` message on failure.  The
unifier is an oracle: `unifyResult` is the outcome `unify(&from, &to)`
would produce (`none` = success). -/
def coerce (flex : Semantics.FlexEnv) (fuel : Nat) (unifyResult : Option UnifyError)
    (expr : Term) (fromType toType : Value) : Option (Term × List Message) :=
  match Semantics.force flex fuel fromType, Semantics.force flex fuel toType with
  | some from0, some to0 =>
      if isFormatToType from0 to0 then
        some (.funApp (.prim .FormatRepr) expr, [])
      else
        match unifyResult with
        | none => some (expr, [])
        | some error => some (Term.error, [.failedToUnify error])
  | _, _ => none

/-! ### Metavariable finalisation (`Context::handle_messages`) -/

/-- `Context::handle_messages`: drain the accumulated messages, then walk
the metavariable environment (zipped solution slots and sources) in
order. -/
def handleMetaMessages : List (Option Value × MetaSource) → List Message
  | [] => []
  | (expr, source) :: rest =>
      (match expr, source with
      | none, .holeType _ => []
      | none, .placeholderType => []
      | none, .reportedErrorType => []
      | none, source => [.unsolvedMetaVar source]
      | some e, .holeExpr name => [.holeSolution name e]
      | some _, _ => []) ++ handleMetaMessages rest

/-- The full `handle_messages` pass: previously accumulated messages
first, then the metavariable messages. -/
def handleMessages (pending : List Message)
    (metaEnv : List (Option Value × MetaSource)) : List Message :=
  pending ++ handleMetaMessages metaEnv

/-- The spec's description of what a single metavariable entry emits at
finalize time, used to state the claim about `handle_messages`: an
unsolved entry emits `UnsolvedMetaVar` unless its source is a hole type,
a placeholder type or a reported-error type; a solved entry emits
`HoleSolution` (with the solution) exactly when its source is a hole
expression. -/
def metaMessageSpec : Option Value × MetaSource → Option Message
  | (none, source) =>
      if source matches .holeType _ | .placeholderType | .reportedErrorType then none
      else some (.unsolvedMetaVar source)
  | (some e, .holeExpr name) => some (.holeSolution name e)
  | (some _, _) => none

/-! ### Constant-pattern match compilation (`Context::elab_match_const`)

The surrounding elaboration state (scrutinee, expected type, spans,
`check`/`check_pattern` calls) is abstracted away: equations arrive as
already-checked patterns (`CheckedPattern`) paired with already-elaborated
body expressions of an opaque type `α`; `elab_match_unreachable` and
`elab_match_absurd` are boundary collaborators, so the rows handed to the
former are recorded in the result and the error term produced by the
latter is the parameter `errorExpr`.

`Const` and its ordering are not among the provided sources; following
§3.5 of the spec, constants are ordered numerically (display styles
carry no weight) and constructor-wise lexicographically, via an explicit
rank/value key. -/

/-- The checked forms of patterns (`CheckedPattern`), spans dropped. -/
inductive CheckedPattern where
  | binder (name : StringId)
  | placeholder
  | constLit (c : ConstLit)
  | reportedError
deriving DecidableEq, Repr

/-- Modelled from the spec: the constructor rank of a constant, the major
key of the constant ordering. -/
def constRank : ConstLit → Nat
  | .bool _ => 0
  | .u8 _ _ => 1
  | .u16 _ _ => 2
  | .u32 _ _ => 3
  | .u64 _ _ => 4
  | .s8 _ => 5
  | .s16 _ => 6
  | .s32 _ => 7
  | .s64 _ => 8
  | .f32 _ => 9
  | .f64 _ => 10
  | .pos _ => 11

/-- Modelled from the spec: the numeric value of a constant, the minor key
of the constant ordering (float ordering is on bit patterns, §3.5). -/
def constVal : ConstLit → Int
  | .bool b => if b then 1 else 0
  | .u8 x _ => x
  | .u16 x _ => x
  | .u32 x _ => x
  | .u64 x _ => x
  | .s8 x => x
  | .s16 x => x
  | .s32 x => x
  | .s64 x => x
  | .f32 bits => bits
  | .f64 bits => bits
  | .pos x => x

/-- Modelled from the spec: the strict constant ordering `Const::cmp`
returns `Less` for (§3.5, numeric/lexicographic). -/
def constLt (a b : ConstLit) : Prop :=
  constRank a < constRank b ∨ (constRank a = constRank b ∧ constVal a < constVal b)

instance (a b : ConstLit) : Decidable (constLt a b) :=
  inferInstanceAs (Decidable (constRank a < constRank b
    ∨ (constRank a = constRank b ∧ constVal a < constVal b)))

/-- Modelled from the spec: the equivalence `Const::cmp` returns `Equal`
for (numeric equality, display styles ignored). -/
def constEqv (a b : ConstLit) : Prop :=
  constRank a = constRank b ∧ constVal a = constVal b

instance (a b : ConstLit) : Decidable (constEqv a b) :=
  inferInstanceAs (Decidable (constRank a = constRank b ∧ constVal a = constVal b))

/-- Modelled from the spec: `Const::num_inhabitants` — the known finite
cardinality of the constant's type (`Bool` = 2, `U8` = 256, etc., §4.3);
floats and positions have no known finite cardinality usable for
exhaustiveness. -/
def numInhabitants : ConstLit → Option Nat
  | .bool _ => some 2
  | .u8 _ _ => some 256
  | .u16 _ _ => some 65536
  | .u32 _ _ => some 4294967296
  | .u64 _ _ => some 18446744073709551616
  | .s8 _ => some 256
  | .s16 _ => some 65536
  | .s32 _ => some 4294967296
  | .s64 _ => some 18446744073709551616
  | .f32 _ => none
  | .f64 _ => none
  | .pos _ => none

/-- Insert a branch at the position `binary_search_by(Const::cmp)` finds
on a sorted accumulator: before the first strictly greater constant. -/
def insertBranch {α : Type} (c : ConstLit) (b : α) :
    List (ConstLit × α) → List (ConstLit × α)
  | [] => [(c, b)]
  | (c', b') :: rest =>
      if constLt c c' then (c, b) :: (c', b') :: rest
      else (c', b') :: insertBranch c b rest

/-- The result of compiling a run of constant patterns: the sorted
branches, the optional default arm (binder name and body; `none` when the
match became exhaustive), the diagnostic messages pushed, and the rows
handed to `elab_match_unreachable`. -/
structure ConstMatchResult (α : Type) where
  branches : List (ConstLit × α)
  defaultCase : Option (Option StringId × α)
  messages : List Message
  unreachableRows : List (CheckedPattern × α)
deriving Repr

/-- The loop of `Context::elab_match_const`: fold the remaining equations
over the accumulated branch vector.  `errorExpr` stands for the
`Term::error` that `elab_match_absurd` produces; `isReachable` is the
reachability flag threaded from `elab_match`. -/
def elabMatchConstLoop {α : Type} (errorExpr : α) (isReachable : Bool) :
    List (ConstLit × α) → List (CheckedPattern × α) → ConstMatchResult α
  | branches, [] =>
      { branches := branches
        defaultCase := some (none, errorExpr)
        messages := if isReachable then [.nonExhaustiveMatchExpr] else []
        unreachableRows := [] }
  | branches, (pattern, bodyExpr) :: equations =>
      match pattern with
      | .constLit c =>
          let dup := branches.any (fun p => constEqv p.1 c)
          let branches' := if dup then branches else insertBranch c bodyExpr branches
          let stepMessages : List Message :=
            if dup then [.unreachablePattern]
            else if isReachable then [] else [.unreachablePattern]
          (match numInhabitants c with
          | some inhab =>
              if inhab ≤ branches'.length then
                { branches := branches'
                  defaultCase := none
                  messages := stepMessages
                  unreachableRows := equations }
              else
                let r := elabMatchConstLoop errorExpr isReachable branches' equations
                { r with messages := stepMessages ++ r.messages }
          | none =>
              let r := elabMatchConstLoop errorExpr isReachable branches' equations
              { r with messages := stepMessages ++ r.messages })
      | .binder name =>
          { branches := branches
            defaultCase := some (some name, bodyExpr)
            messages := if isReachable then [] else [.unreachablePattern]
            unreachableRows := equations }
      | .placeholder =>
          { branches := branches
            defaultCase := some (none, bodyExpr)
            messages := if isReachable then [] else [.unreachablePattern]
            unreachableRows := equations }
      | .reportedError =>
          { branches := branches
            defaultCase := some (none, bodyExpr)
            messages := []
            unreachableRows := [] }

/-- `Context::elab_match_const`: the branch vector starts with the run's
first constant equation. -/
def elabMatchConst {α : Type} (errorExpr : α) (isReachable : Bool)
    (c₀ : ConstLit) (b₀ : α) (equations : List (CheckedPattern × α)) : ConstMatchResult α :=
  elabMatchConstLoop errorExpr isReachable [(c₀, b₀)] equations

end Elab

/-! ## Theorems -/

/-- C9: index/level conversion is determined by the environment length and
round-trips: for `i < n`, `local_to_global(n, i) = Some(n - i - 1)` and
`global_to_local(n, n - i - 1) = Some(i)`; every out-of-range index or
level (`≥ n`) converts to `None`. -/
theorem index_level_roundtrip (n i : Nat) :
    (i < n →
      Env.localToGlobal n i = some (n - i - 1)
        ∧ Env.globalToLocal n (n - i - 1) = some i)
    ∧ (n ≤ i → Env.localToGlobal n i = none)
    ∧ (n ≤ i → Env.globalToLocal n i = none) := by
  refine ⟨fun h => ⟨?_, ?_⟩, fun h => ?_, fun h => ?_⟩ <;>
    simp only [Env.localToGlobal, Env.globalToLocal, Env.checkedSub] <;>
    repeat' split <;> simp_all <;> omega

/-- Witness for C9 at `n = 3`, `i = 1`. -/
theorem index_level_roundtrip_witness :
    Env.localToGlobal 3 1 = some 1 ∧ Env.globalToLocal 3 1 = some 1
      ∧ Env.localToGlobal 3 5 = none :=
  ⟨((index_level_roundtrip 3 1).1 (by decide)).1,
   ((index_level_roundtrip 3 1).1 (by decide)).2,
   (index_level_roundtrip 3 5).2.1 (by decide)⟩

/-- C8 counterexample: the push assertion is `len < u16::MAX`
(`= 2 ^ 16 - 1`), so a push onto an environment of length `65535` —
which is *below* the claimed bound of `2 ^ 16` — already fails, for both
the uniquely-owned and the structurally-shared environment flavors. -/
theorem env_push_at_65535_fails :
    (List.replicate 65535 (0 : Nat)).length < 2 ^ 16
    ∧ Env.uniquePush (List.replicate 65535 (0 : Nat)) 0 = none
    ∧ Env.sharedPush (List.replicate 65535 (0 : Nat)) 0 = none := by
  refine ⟨?_, ?_, ?_⟩ <;>
    simp only [Env.uniquePush, Env.sharedPush, List.length_replicate] <;> norm_num

/-- C8 (amended): for both environment flavors the maximum environment
length is `u16::MAX = 2 ^ 16 - 1`: a push succeeds (appending the entry)
exactly on environments shorter than `2 ^ 16 - 1`, and fails the
implementation (assertion, not a user-facing error) exactly at length
`≥ 2 ^ 16 - 1`. -/
theorem env_push_succeeds_iff_below_u16_max {α : Type} (l : List α) (e : α) :
    (Env.uniquePush l e = some (l ++ [e]) ↔ l.length < 2 ^ 16 - 1)
    ∧ (Env.uniquePush l e = none ↔ 2 ^ 16 - 1 ≤ l.length)
    ∧ (Env.sharedPush l e = some (l ++ [e]) ↔ l.length < 2 ^ 16 - 1)
    ∧ (Env.sharedPush l e = none ↔ 2 ^ 16 - 1 ≤ l.length) := by
  simp only [Env.uniquePush, Env.sharedPush]
  refine ⟨?_, ?_, ?_, ?_⟩ <;> split <;> simp_all

/-- The suppressed unsolved-metavariable sources of `handle_messages`:
hole types, placeholder types and reported-error types. -/
def Elab.suppressedSource (s : Elab.MetaSource) : Bool :=
  s matches .holeType _ | .placeholderType | .reportedErrorType

/-- C7: at finalize time `handle_messages` drains the pending messages and
then emits, for each metavariable entry in order, exactly what the spec
prescribes (`metaMessageSpec`): an unsolved entry yields `UnsolvedMetaVar`
unless its source is a hole type / placeholder type / reported-error type
(then nothing), and a solved entry yields `HoleSolution` carrying the
solution exactly when its source is a hole expression. -/
theorem handle_messages_meta_emission
    (pending : List Elab.Message) (metaEnv : List (Option Value × Elab.MetaSource)) :
    Elab.handleMessages pending metaEnv
        = pending ++ metaEnv.filterMap Elab.metaMessageSpec
    ∧ (∀ s : Elab.MetaSource, Elab.suppressedSource s = false →
        Elab.metaMessageSpec (none, s) = some (.unsolvedMetaVar s))
    ∧ (∀ s : Elab.MetaSource, Elab.suppressedSource s = true →
        Elab.metaMessageSpec (none, s) = none)
    ∧ (∀ (e : Value) (name : StringId),
        Elab.metaMessageSpec (some e, .holeExpr name) = some (.holeSolution name e))
    ∧ (∀ (e : Value) (s : Elab.MetaSource), (∀ name, s ≠ .holeExpr name) →
        Elab.metaMessageSpec (some e, s) = none) := by
  refine ⟨?_, ?_, ?_, ?_, ?_⟩
  · unfold Elab.handleMessages
    congr 1
    induction metaEnv with
    | nil => rfl
    | cons hd tl ih =>
        obtain ⟨e, s⟩ := hd
        cases e <;> cases s <;>
          simp [Elab.handleMetaMessages, Elab.metaMessageSpec, List.filterMap_cons, ih]
  · intro s hs
    cases s <;> simp_all [Elab.suppressedSource, Elab.metaMessageSpec]
  · intro s hs
    cases s <;> simp_all [Elab.suppressedSource, Elab.metaMessageSpec]
  · intro e name
    rfl
  · intro e s hs
    cases s <;> simp_all [Elab.metaMessageSpec]

/-- Witness for C7 on a two-entry metavariable environment: an unsolved
match-expression-type meta is reported, an unsolved hole-type meta is
suppressed. -/
theorem handle_messages_meta_emission_witness :
    Elab.handleMessages [] [(none, .matchExprType), (none, .holeType 0)]
      = [.unsolvedMetaVar .matchExprType]
    ∧ Elab.metaMessageSpec (none, Elab.MetaSource.matchExprType)
      = some (.unsolvedMetaVar .matchExprType) :=
  ⟨(handle_messages_meta_emission [] [(none, .matchExprType), (none, .holeType 0)]).1.trans
      (by rfl),
   (handle_messages_meta_emission [] []).2.1 .matchExprType (by rfl)⟩

/-- C3: `coerce` forces both types; when the synthesized type is the
`Format` universe and the expected type is `Type` it wraps the term in an
application of the `FormatRepr` primitive (without consulting the
unifier); for every other pair it returns the term unchanged when
unification succeeds, and on unification failure emits `FailedToUnify`
and returns an error term. -/
theorem coerce_format_lift_and_unify (flex : Semantics.FlexEnv) (fuel : Nat)
    (unifyResult : Option Elab.UnifyError) (expr : Term) (fromType toType : Value)
    (from0 to0 : Value)
    (h0 : Semantics.force flex fuel fromType = some from0)
    (h1 : Semantics.force flex fuel toType = some to0) :
    (from0 = .stuck (.prim .FormatType) [] → to0 = .universe →
      Elab.coerce flex fuel unifyResult expr fromType toType
        = some (.funApp (.prim .FormatRepr) expr, []))
    ∧ (Elab.isFormatToType from0 to0 = false →
        (unifyResult = none →
          Elab.coerce flex fuel unifyResult expr fromType toType = some (expr, []))
        ∧ (∀ error, unifyResult = some error →
            Elab.coerce flex fuel unifyResult expr fromType toType
              = some (Elab.Term.error, [.failedToUnify error]))) := by
  constructor
  · rintro rfl rfl
    simp [Elab.coerce, h0, h1, Elab.isFormatToType]
  · intro hne
    refine ⟨fun h => ?_, fun error h => ?_⟩ <;>
      simp [Elab.coerce, h0, h1, hne, h]

/-- Witness for C3: lifting a boolean-literal term from `Format` to
`Type` wraps it in `Repr`. -/
theorem coerce_format_lift_and_unify_witness :
    Elab.coerce [] 1 none (.constLit (.bool true)) (Value.primApp .FormatType []) .universe
      = some (.funApp (.prim .FormatRepr) (.constLit (.bool true)), []) :=
  (coerce_format_lift_and_unify [] 1 none (.constLit (.bool true))
      (Value.primApp .FormatType []) .universe
      (Value.primApp .FormatType []) .universe rfl rfl).1 rfl rfl

/-- C10: when a constant match is applied to a `ConstLit` scrutinee that
matches none of the branch constants and a default expression is present,
the default is evaluated in the branches' captured environment extended
with the scrutinee value pushed as the innermost binding. -/
theorem const_match_default_scope (flex : Semantics.FlexEnv) (fuel : Nat)
    (env : List Value) (patternBranches : List (ConstLit × Term)) (defaultExpr : Term)
    (c : ConstLit)
    (hmiss : ∀ p ∈ patternBranches, p.1 ≠ c) :
    Semantics.constMatchValue flex (fuel + 1) (.constLit c)
        (.mk env patternBranches (some defaultExpr))
      = Semantics.eval flex fuel (env ++ [Value.constLit c]) defaultExpr := by
  have hfind : patternBranches.find? (fun b => b.1 = c) = none := by
    rw [List.find?_eq_none]
    intro p hp
    simpa using hmiss p hp
  simp [Semantics.constMatchValue, Branches.patternBranches, Branches.rigidExprs,
    Branches.defaultExpr, hfind]

/-- Witness for C10: an empty branch list with default `LocalVar 0`
evaluates the default to the scrutinee itself — the matched value is in
scope as the innermost binding. -/
theorem const_match_default_scope_witness :
    Semantics.constMatchValue [] 2 (.constLit (.bool true)) (.mk [] [] (some (.rigidVar 0)))
        = Semantics.eval [] 1 [Value.constLit (.bool true)] (.rigidVar 0)
    ∧ Semantics.eval [] 1 [Value.constLit (.bool true)] (.rigidVar 0)
        = some (.constLit (.bool true)) :=
  ⟨const_match_default_scope [] 1 [] [] (.rigidVar 0) (.bool true) (by simp), by rfl⟩

/-- C5: conversion checking absorbs reported errors: whenever either side
forces to a value stuck on the `ReportedError` primitive (with any
spine), `is_equal` returns `true` regardless of the other value. -/
theorem is_equal_reported_error_absorbs (flex : Semantics.FlexEnv) (fuel n : Nat)
    (value0 value1 w0 w1 : Value)
    (h0 : Semantics.force flex fuel value0 = some w0)
    (h1 : Semantics.force flex fuel value1 = some w1)
    (herr : (∃ spine, w0 = .stuck (.prim .ReportedError) spine)
      ∨ (∃ spine, w1 = .stuck (.prim .ReportedError) spine)) :
    Semantics.isEqual flex (fuel + 1) n value0 value1 = some true := by
  have hrep : (Semantics.isReportedErrorValue w0 || Semantics.isReportedErrorValue w1) = true := by
    rcases herr with ⟨spine, rfl⟩ | ⟨spine, rfl⟩ <;>
      simp [Semantics.isReportedErrorValue]
  unfold Semantics.isEqual
  rw [h0, h1]
  simp [hrep]

/-- Witness for C5: a reported-error value with a nonempty spine equals
`Universe`. -/
theorem is_equal_reported_error_absorbs_witness :
    Semantics.isEqual [] 2 0
        (.stuck (.prim .ReportedError) [.recordProj 3]) .universe = some true :=
  is_equal_reported_error_absorbs [] 1 0
    (.stuck (.prim .ReportedError) [.recordProj 3]) .universe
    (.stuck (.prim .ReportedError) [.recordProj 3]) .universe
    rfl rfl (Or.inl ⟨[.recordProj 3], rfl⟩)

/-- C1: `format_repr` sends a format-record or format-overlap value with
labels `ls` and telescope `Ts` to the record-type value with the same
labels and the same telescope with its `apply_repr` flag set; splitting a
telescope whose flag is set wraps the evaluated field type in `Repr`
(`format_repr`) and hands back a continuation whose telescope still has
the flag set over the remaining terms. -/
theorem format_repr_record_overlap (flex : Semantics.FlexEnv) (fuel : Nat)
    (labels : List StringId) (formats : Telescope) :
    Semantics.formatRepr flex (fuel + 1) (.formatRecord labels formats)
        = some (.recordType labels formats.applyRepr)
    ∧ Semantics.formatRepr flex (fuel + 1) (.formatOverlap labels formats)
        = some (.recordType labels formats.applyRepr)
    ∧ (∀ (env : List Value) (t : Term) (rest : List Term) (v r : Value),
        Semantics.eval flex fuel env t = some v →
        Semantics.formatRepr flex fuel v = some r →
        ∃ k, Semantics.splitTelescope flex (fuel + 1) (.mk env true (t :: rest))
            = some (some (r, k))
          ∧ ∀ prev, k prev = Telescope.mk (env ++ [prev]) true rest) := by
  refine ⟨rfl, rfl, ?_⟩
  intro env t rest v r heval hrepr
  refine ⟨fun prev => Telescope.mk (env ++ [prev]) true rest, ?_, fun prev => rfl⟩
  simp [Semantics.splitTelescope, Telescope.terms, Telescope.rigidExprs,
    Telescope.applyReprFlag, heval, hrepr]

/-- Witness for C1: `Repr` of a one-field format record, and splitting
the flag-set telescope `{_ : u8}` wraps the field in `Repr(u8) = U8`. -/
theorem format_repr_record_overlap_witness :
    Semantics.formatRepr [] 1 (.formatRecord [0] (.mk [] false []))
        = some (.recordType [0] (.mk [] true []))
    ∧ ∃ k, Semantics.splitTelescope [] 2 (.mk [] true [.prim .FormatU8])
          = some (some (Value.primApp .U8Type [], k))
        ∧ ∀ prev, k prev = Telescope.mk [prev] true [] :=
  ⟨(format_repr_record_overlap [] 0 [0] (.mk [] false [])).1,
   (format_repr_record_overlap [] 1 [0] (.mk [] false [])).2.2
     [] (.prim .FormatU8) [] (Value.primApp .FormatU8 []) (Value.primApp .U8Type []) rfl rfl⟩

/-- The η-for-records loop `is_equal_record_lit` succeeds when every
zipped field satisfies it at the fuel the loop reaches it with. -/
theorem isEqualRecordLit_of_fields (flex : Semantics.FlexEnv) (n : Nat) :
    ∀ (ls : List StringId) (es : List Value) (w : Value) (fuel : Nat),
      (ls.zip es).length < fuel →
      (∀ i (h : i < (ls.zip es).length),
        ∃ fv, Semantics.recordProjValue w ((ls.zip es).get ⟨i, h⟩).1 = some fv
          ∧ Semantics.isEqual flex (fuel - 1 - i) n ((ls.zip es).get ⟨i, h⟩).2 fv
              = some true) →
      Semantics.isEqualRecordLit flex fuel n ls es w = some true := by
  intro ls
  induction ls with
  | nil =>
      intro es w fuel hfuel _
      match fuel, hfuel with
      | fuel + 1, _ => simp [Semantics.isEqualRecordLit]
  | cons l ls ih =>
      intro es w fuel hfuel hfields
      match es with
      | [] =>
          match fuel, hfuel with
          | fuel + 1, _ => simp [Semantics.isEqualRecordLit]
      | e :: es =>
          match fuel, hfuel with
          | fuel + 1, hfuel =>
            obtain ⟨fv, hproj, heq⟩ := hfields 0 (by simp)
            simp only [List.zip_cons_cons, List.get] at hproj heq
            have hrest := ih es w fuel (by simpa [Nat.lt_succ_iff] using hfuel)
              (fun i h => by
                obtain ⟨fv', hp', he'⟩ := hfields (i + 1) (by simpa using Nat.succ_lt_succ h)
                rw [show fuel - 1 - i = fuel - (i + 1) by omega]
                exact ⟨fv', by simpa using hp', by simpa using he'⟩)
            simp only [Nat.add_sub_cancel, Nat.sub_zero] at heq
            simp [Semantics.isEqualRecordLit, hproj, heq, hrest]

set_option linter.unreachableTactic false in
set_option linter.unusedTactic false in
/-- C6: η for records in conversion checking: a record literal whose
every field expression is convertible with the corresponding projection
of the other (non-literal) value is judged equal to that value. -/
theorem is_equal_record_eta (flex : Semantics.FlexEnv) (fuel n : Nat)
    (value0 value1 : Value) (ls : List StringId) (es : List Value) (w : Value)
    (h0 : Semantics.force flex fuel value0 = some (.recordLit ls es))
    (h1 : Semantics.force flex fuel value1 = some w)
    (hw1 : ∀ name oe, w ≠ .funLit name oe)
    (hw2 : ∀ ls' es', w ≠ .recordLit ls' es')
    (hw3 : Semantics.isReportedErrorValue w = false)
    (hfuel : (ls.zip es).length < fuel)
    (hfields : ∀ i (h : i < (ls.zip es).length),
      ∃ fv, Semantics.recordProjValue w ((ls.zip es).get ⟨i, h⟩).1 = some fv
        ∧ Semantics.isEqual flex (fuel - 1 - i) n ((ls.zip es).get ⟨i, h⟩).2 fv
            = some true) :
    Semantics.isEqual flex (fuel + 1) n value0 value1 = some true := by
  have hrl := isEqualRecordLit_of_fields flex n ls es w fuel hfuel hfields
  unfold Semantics.isEqual
  rw [h0, h1]
  have hrep0 : Semantics.isReportedErrorValue (.recordLit ls es) = false := rfl
  simp only [hrep0, hw3, Bool.or_self, Bool.false_eq_true, if_false]
  cases w <;>
    first
    | exact hrl
    | exact absurd rfl (hw1 _ _)
    | exact absurd rfl (hw2 _ _)

/-- Witness for C6: `{x = r.x}` is convertible with the stuck value `r`. -/
theorem is_equal_record_eta_witness :
    Semantics.isEqual [] 5 0
        (.recordLit [5] [.stuck (.rigidVar 9) [.recordProj 5]])
        (.stuck (.rigidVar 9) []) = some true :=
  is_equal_record_eta [] 4 0
    (.recordLit [5] [.stuck (.rigidVar 9) [.recordProj 5]])
    (.stuck (.rigidVar 9) [])
    [5] [.stuck (.rigidVar 9) [.recordProj 5]]
    (.stuck (.rigidVar 9) [])
    rfl rfl (fun name oe h => by cases h) (fun ls' es' h => by cases h) rfl
    (by decide)
    (fun i h => by
      match i with
      | 0 => exact ⟨.stuck (.rigidVar 9) [.recordProj 5], rfl, rfl⟩
      | i + 1 => simp [List.zip] at h)


namespace Semantics

/-- `prim_step` dispatch equations for the checked integer primitives,
read off the corresponding arms of the `prim_step` table. -/
theorem primStep_U8Add_eq (flex : FlexEnv) (fuel : Nat) (spine : List Elim) :
    primStep flex (fuel + 1) .U8Add spine = some (stepUArith ConstLit.matchU8 ConstLit.u8 (uCheckedAdd 255) spine) := rfl

theorem primStep_U8Sub_eq (flex : FlexEnv) (fuel : Nat) (spine : List Elim) :
    primStep flex (fuel + 1) .U8Sub spine = some (stepUArith ConstLit.matchU8 ConstLit.u8 uCheckedSub spine) := rfl

theorem primStep_U8Mul_eq (flex : FlexEnv) (fuel : Nat) (spine : List Elim) :
    primStep flex (fuel + 1) .U8Mul spine = some (stepUArith ConstLit.matchU8 ConstLit.u8 (uCheckedMul 255) spine) := rfl

theorem primStep_U8Div_eq (flex : FlexEnv) (fuel : Nat) (spine : List Elim) :
    primStep flex (fuel + 1) .U8Div spine = some (stepUArith ConstLit.matchU8 ConstLit.u8 uCheckedDiv spine) := rfl

theorem primStep_U8Shl_eq (flex : FlexEnv) (fuel : Nat) (spine : List Elim) :
    primStep flex (fuel + 1) .U8Shl spine = some (stepUShift ConstLit.matchU8 ConstLit.u8 (uCheckedShl 8) spine) := rfl

theorem primStep_U8Shr_eq (flex : FlexEnv) (fuel : Nat) (spine : List Elim) :
    primStep flex (fuel + 1) .U8Shr spine = some (stepUShift ConstLit.matchU8 ConstLit.u8 (uCheckedShr 8) spine) := rfl

theorem primStep_U16Add_eq (flex : FlexEnv) (fuel : Nat) (spine : List Elim) :
    primStep flex (fuel + 1) .U16Add spine = some (stepUArith ConstLit.matchU16 ConstLit.u16 (uCheckedAdd 65535) spine) := rfl

theorem primStep_U16Sub_eq (flex : FlexEnv) (fuel : Nat) (spine : List Elim) :
    primStep flex (fuel + 1) .U16Sub spine = some (stepUArith ConstLit.matchU16 ConstLit.u16 uCheckedSub spine) := rfl

theorem primStep_U16Mul_eq (flex : FlexEnv) (fuel : Nat) (spine : List Elim) :
    primStep flex (fuel + 1) .U16Mul spine = some (stepUArith ConstLit.matchU16 ConstLit.u16 (uCheckedMul 65535) spine) := rfl

theorem primStep_U16Div_eq (flex : FlexEnv) (fuel : Nat) (spine : List Elim) :
    primStep flex (fuel + 1) .U16Div spine = some (stepUArith ConstLit.matchU16 ConstLit.u16 uCheckedDiv spine) := rfl

theorem primStep_U16Shl_eq (flex : FlexEnv) (fuel : Nat) (spine : List Elim) :
    primStep flex (fuel + 1) .U16Shl spine = some (stepUShift ConstLit.matchU16 ConstLit.u16 (uCheckedShl 16) spine) := rfl

theorem primStep_U16Shr_eq (flex : FlexEnv) (fuel : Nat) (spine : List Elim) :
    primStep flex (fuel + 1) .U16Shr spine = some (stepUShift ConstLit.matchU16 ConstLit.u16 (uCheckedShr 16) spine) := rfl

theorem primStep_U32Add_eq (flex : FlexEnv) (fuel : Nat) (spine : List Elim) :
    primStep flex (fuel + 1) .U32Add spine = some (stepUArith ConstLit.matchU32 ConstLit.u32 (uCheckedAdd 4294967295) spine) := rfl

theorem primStep_U32Sub_eq (flex : FlexEnv) (fuel : Nat) (spine : List Elim) :
    primStep flex (fuel + 1) .U32Sub spine = some (stepUArith ConstLit.matchU32 ConstLit.u32 uCheckedSub spine) := rfl

theorem primStep_U32Mul_eq (flex : FlexEnv) (fuel : Nat) (spine : List Elim) :
    primStep flex (fuel + 1) .U32Mul spine = some (stepUArith ConstLit.matchU32 ConstLit.u32 (uCheckedMul 4294967295) spine) := rfl

theorem primStep_U32Div_eq (flex : FlexEnv) (fuel : Nat) (spine : List Elim) :
    primStep flex (fuel + 1) .U32Div spine = some (stepUArith ConstLit.matchU32 ConstLit.u32 uCheckedDiv spine) := rfl

theorem primStep_U32Shl_eq (flex : FlexEnv) (fuel : Nat) (spine : List Elim) :
    primStep flex (fuel + 1) .U32Shl spine = some (stepUShift ConstLit.matchU32 ConstLit.u32 (uCheckedShl 32) spine) := rfl

theorem primStep_U32Shr_eq (flex : FlexEnv) (fuel : Nat) (spine : List Elim) :
    primStep flex (fuel + 1) .U32Shr spine = some (stepUShift ConstLit.matchU32 ConstLit.u32 (uCheckedShr 32) spine) := rfl

theorem primStep_U64Add_eq (flex : FlexEnv) (fuel : Nat) (spine : List Elim) :
    primStep flex (fuel + 1) .U64Add spine = some (stepUArith ConstLit.matchU64 ConstLit.u64 (uCheckedAdd 18446744073709551615) spine) := rfl

theorem primStep_U64Sub_eq (flex : FlexEnv) (fuel : Nat) (spine : List Elim) :
    primStep flex (fuel + 1) .U64Sub spine = some (stepUArith ConstLit.matchU64 ConstLit.u64 uCheckedSub spine) := rfl

theorem primStep_U64Mul_eq (flex : FlexEnv) (fuel : Nat) (spine : List Elim) :
    primStep flex (fuel + 1) .U64Mul spine = some (stepUArith ConstLit.matchU64 ConstLit.u64 (uCheckedMul 18446744073709551615) spine) := rfl

theorem primStep_U64Div_eq (flex : FlexEnv) (fuel : Nat) (spine : List Elim) :
    primStep flex (fuel + 1) .U64Div spine = some (stepUArith ConstLit.matchU64 ConstLit.u64 uCheckedDiv spine) := rfl

theorem primStep_U64Shl_eq (flex : FlexEnv) (fuel : Nat) (spine : List Elim) :
    primStep flex (fuel + 1) .U64Shl spine = some (stepUShift ConstLit.matchU64 ConstLit.u64 (uCheckedShl 64) spine) := rfl

theorem primStep_U64Shr_eq (flex : FlexEnv) (fuel : Nat) (spine : List Elim) :
    primStep flex (fuel + 1) .U64Shr spine = some (stepUShift ConstLit.matchU64 ConstLit.u64 (uCheckedShr 64) spine) := rfl

theorem primStep_S8Neg_eq (flex : FlexEnv) (fuel : Nat) (spine : List Elim) :
    primStep flex (fuel + 1) .S8Neg spine = some (stepS1 ConstLit.matchS8 ConstLit.s8 (iCheckedNeg (-128)) spine) := rfl

theorem primStep_S8Add_eq (flex : FlexEnv) (fuel : Nat) (spine : List Elim) :
    primStep flex (fuel + 1) .S8Add spine = some (stepSArith ConstLit.matchS8 ConstLit.s8 (iCheckedAdd (-128) 127) spine) := rfl

theorem primStep_S8Sub_eq (flex : FlexEnv) (fuel : Nat) (spine : List Elim) :
    primStep flex (fuel + 1) .S8Sub spine = some (stepSArith ConstLit.matchS8 ConstLit.s8 (iCheckedSub (-128) 127) spine) := rfl

theorem primStep_S8Mul_eq (flex : FlexEnv) (fuel : Nat) (spine : List Elim) :
    primStep flex (fuel + 1) .S8Mul spine = some (stepSArith ConstLit.matchS8 ConstLit.s8 (iCheckedMul (-128) 127) spine) := rfl

theorem primStep_S8Div_eq (flex : FlexEnv) (fuel : Nat) (spine : List Elim) :
    primStep flex (fuel + 1) .S8Div spine = some (stepSArith ConstLit.matchS8 ConstLit.s8 (iCheckedDiv (-128)) spine) := rfl

theorem primStep_S16Neg_eq (flex : FlexEnv) (fuel : Nat) (spine : List Elim) :
    primStep flex (fuel + 1) .S16Neg spine = some (stepS1 ConstLit.matchS16 ConstLit.s16 (iCheckedNeg (-32768)) spine) := rfl

theorem primStep_S16Add_eq (flex : FlexEnv) (fuel : Nat) (spine : List Elim) :
    primStep flex (fuel + 1) .S16Add spine = some (stepSArith ConstLit.matchS16 ConstLit.s16 (iCheckedAdd (-32768) 32767) spine) := rfl

theorem primStep_S16Sub_eq (flex : FlexEnv) (fuel : Nat) (spine : List Elim) :
    primStep flex (fuel + 1) .S16Sub spine = some (stepSArith ConstLit.matchS16 ConstLit.s16 (iCheckedSub (-32768) 32767) spine) := rfl

theorem primStep_S16Mul_eq (flex : FlexEnv) (fuel : Nat) (spine : List Elim) :
    primStep flex (fuel + 1) .S16Mul spine = some (stepSArith ConstLit.matchS16 ConstLit.s16 (iCheckedMul (-32768) 32767) spine) := rfl

theorem primStep_S16Div_eq (flex : FlexEnv) (fuel : Nat) (spine : List Elim) :
    primStep flex (fuel + 1) .S16Div spine = some (stepSArith ConstLit.matchS16 ConstLit.s16 (iCheckedDiv (-32768)) spine) := rfl

theorem primStep_S32Neg_eq (flex : FlexEnv) (fuel : Nat) (spine : List Elim) :
    primStep flex (fuel + 1) .S32Neg spine = some (stepS1 ConstLit.matchS32 ConstLit.s32 (iCheckedNeg (-2147483648)) spine) := rfl

theorem primStep_S32Add_eq (flex : FlexEnv) (fuel : Nat) (spine : List Elim) :
    primStep flex (fuel + 1) .S32Add spine = some (stepSArith ConstLit.matchS32 ConstLit.s32 (iCheckedAdd (-2147483648) 2147483647) spine) := rfl

theorem primStep_S32Sub_eq (flex : FlexEnv) (fuel : Nat) (spine : List Elim) :
    primStep flex (fuel + 1) .S32Sub spine = some (stepSArith ConstLit.matchS32 ConstLit.s32 (iCheckedSub (-2147483648) 2147483647) spine) := rfl

theorem primStep_S32Mul_eq (flex : FlexEnv) (fuel : Nat) (spine : List Elim) :
    primStep flex (fuel + 1) .S32Mul spine = some (stepSArith ConstLit.matchS32 ConstLit.s32 (iCheckedMul (-2147483648) 2147483647) spine) := rfl

theorem primStep_S32Div_eq (flex : FlexEnv) (fuel : Nat) (spine : List Elim) :
    primStep flex (fuel + 1) .S32Div spine = some (stepSArith ConstLit.matchS32 ConstLit.s32 (iCheckedDiv (-2147483648)) spine) := rfl

theorem primStep_S64Neg_eq (flex : FlexEnv) (fuel : Nat) (spine : List Elim) :
    primStep flex (fuel + 1) .S64Neg spine = some (stepS1 ConstLit.matchS64 ConstLit.s64 (iCheckedNeg (-9223372036854775808)) spine) := rfl

theorem primStep_S64Add_eq (flex : FlexEnv) (fuel : Nat) (spine : List Elim) :
    primStep flex (fuel + 1) .S64Add spine = some (stepSArith ConstLit.matchS64 ConstLit.s64 (iCheckedAdd (-9223372036854775808) 9223372036854775807) spine) := rfl

theorem primStep_S64Sub_eq (flex : FlexEnv) (fuel : Nat) (spine : List Elim) :
    primStep flex (fuel + 1) .S64Sub spine = some (stepSArith ConstLit.matchS64 ConstLit.s64 (iCheckedSub (-9223372036854775808) 9223372036854775807) spine) := rfl

theorem primStep_S64Mul_eq (flex : FlexEnv) (fuel : Nat) (spine : List Elim) :
    primStep flex (fuel + 1) .S64Mul spine = some (stepSArith ConstLit.matchS64 ConstLit.s64 (iCheckedMul (-9223372036854775808) 9223372036854775807) spine) := rfl

theorem primStep_S64Div_eq (flex : FlexEnv) (fuel : Nat) (spine : List Elim) :
    primStep flex (fuel + 1) .S64Div spine = some (stepSArith ConstLit.matchS64 ConstLit.s64 (iCheckedDiv (-9223372036854775808)) spine) := rfl

/-- When a primitive's step declines to reduce (`None` from the step
function), `fun_app` leaves the application stuck with the extended
spine. -/
theorem funApp_stuck_of_primStep_none (flex : FlexEnv) (fuel : Nat) (p : Prim)
    (spine : List Elim) (input : Value)
    (h : primStep flex (fuel + 1) p (spine ++ [.funApp input]) = some none) :
    funApp flex (fuel + 2) (.stuck (.prim p) spine) input
      = some (.stuck (.prim p) (spine ++ [.funApp input])) := by
  simp [funApp, h]

/-- When a primitive's step reduces, `fun_app` returns the reduct. -/
theorem funApp_reduce_of_primStep_some (flex : FlexEnv) (fuel : Nat) (p : Prim)
    (spine : List Elim) (input : Value) (v : Value)
    (h : primStep flex (fuel + 1) p (spine ++ [.funApp input]) = some (some v)) :
    funApp flex (fuel + 2) (.stuck (.prim p) spine) input = some v := by
  simp [funApp, h]

/-- A binary primitive applied (via `fun_app`) to two constant literals
stays stuck with the full argument spine. -/
def binAppStuck (flex : FlexEnv) (fuel : Nat) (p : Prim) (x y : ConstLit) : Prop :=
  funApp flex (fuel + 2) (.stuck (.prim p) [.funApp (.constLit x)]) (.constLit y)
    = some (.stuck (.prim p) [.funApp (.constLit x), .funApp (.constLit y)])

/-- A binary primitive applied (via `fun_app`) to two constant literals
reduces to the constant `c`. -/
def binAppReduces (flex : FlexEnv) (fuel : Nat) (p : Prim) (x y c : ConstLit) : Prop :=
  funApp flex (fuel + 2) (.stuck (.prim p) [.funApp (.constLit x)]) (.constLit y)
    = some (.constLit c)

/-- A unary primitive applied (via `fun_app`) to a constant literal stays
stuck with the argument on its spine. -/
def unAppStuck (flex : FlexEnv) (fuel : Nat) (p : Prim) (x : ConstLit) : Prop :=
  funApp flex (fuel + 2) (Value.primApp p []) (.constLit x)
    = some (.stuck (.prim p) [.funApp (.constLit x)])

end Semantics

/-- C2 counterexample: `U8Shl` applied to `128` and `1` has the
mathematical result `256`, which overflows the `u8` width — yet the
primitive *reduces*, to the wrapped constant `0` (`checked_shl` only
fails on shift amounts `≥` the bit width; overflowing bits are
discarded). -/
theorem checked_shl_overflow_still_reduces :
    2 ^ 8 ≤ 128 * 2 ^ 1
    ∧ Semantics.funApp [] 2
        (.stuck (.prim .U8Shl) [.funApp (.constLit (.u8 128 .decimal))])
        (.constLit (.u8 1 .decimal))
      = some (.constLit (.u8 0 .decimal)) :=
  ⟨by norm_num, rfl⟩

/-- C2 (amended): for the checked `add`/`sub`/`mul`/`div`/`neg`
primitives on every integer width, a mathematical result outside the
width (or a division by zero, or `MIN / -1`, or `-MIN`) makes the
primitive fail to reduce: the `fun_app` result is a stuck value with the
primitive at its head and the full argument spine — not an error and not
a wrapped constant.  The `shl`/`shr` primitives instead fail to reduce
exactly when the shift amount reaches the bit width; below it they
always reduce, `shl` discarding overflowing high bits (the result is the
mathematical value modulo `2 ^ width`). -/
theorem checked_prim_ops (flex : Semantics.FlexEnv) (fuel : Nat) :
    (∀ (x y : Nat) (sx sy : UIntStyle), 255 < x + y →
        Semantics.binAppStuck flex fuel .U8Add (.u8 x sx) (.u8 y sy))
    ∧ (∀ (x y : Nat) (sx sy : UIntStyle), x < y →
        Semantics.binAppStuck flex fuel .U8Sub (.u8 x sx) (.u8 y sy))
    ∧ (∀ (x y : Nat) (sx sy : UIntStyle), 255 < x * y →
        Semantics.binAppStuck flex fuel .U8Mul (.u8 x sx) (.u8 y sy))
    ∧ (∀ (x : Nat) (sx sy : UIntStyle),
        Semantics.binAppStuck flex fuel .U8Div (.u8 x sx) (.u8 0 sy))
    ∧ (∀ (x y : Nat) (sx sy : UIntStyle), 8 ≤ y →
        Semantics.binAppStuck flex fuel .U8Shl (.u8 x sx) (.u8 y sy))
    ∧ (∀ (x y : Nat) (sx sy : UIntStyle), 8 ≤ y →
        Semantics.binAppStuck flex fuel .U8Shr (.u8 x sx) (.u8 y sy))
    ∧ (∀ (x y : Nat) (sx sy : UIntStyle), y < 8 →
        Semantics.binAppReduces flex fuel .U8Shl (.u8 x sx) (.u8 y sy)
          (.u8 ((x * 2 ^ y) % 2 ^ 8) sx))
    ∧ (∀ (x y : Nat) (sx sy : UIntStyle), y < 8 →
        Semantics.binAppReduces flex fuel .U8Shr (.u8 x sx) (.u8 y sy)
          (.u8 (x / 2 ^ y) sx))
    ∧ (∀ (x y : Nat) (sx sy : UIntStyle), 65535 < x + y →
        Semantics.binAppStuck flex fuel .U16Add (.u16 x sx) (.u16 y sy))
    ∧ (∀ (x y : Nat) (sx sy : UIntStyle), x < y →
        Semantics.binAppStuck flex fuel .U16Sub (.u16 x sx) (.u16 y sy))
    ∧ (∀ (x y : Nat) (sx sy : UIntStyle), 65535 < x * y →
        Semantics.binAppStuck flex fuel .U16Mul (.u16 x sx) (.u16 y sy))
    ∧ (∀ (x : Nat) (sx sy : UIntStyle),
        Semantics.binAppStuck flex fuel .U16Div (.u16 x sx) (.u16 0 sy))
    ∧ (∀ (x y : Nat) (sx sy : UIntStyle), 16 ≤ y →
        Semantics.binAppStuck flex fuel .U16Shl (.u16 x sx) (.u8 y sy))
    ∧ (∀ (x y : Nat) (sx sy : UIntStyle), 16 ≤ y →
        Semantics.binAppStuck flex fuel .U16Shr (.u16 x sx) (.u8 y sy))
    ∧ (∀ (x y : Nat) (sx sy : UIntStyle), y < 16 →
        Semantics.binAppReduces flex fuel .U16Shl (.u16 x sx) (.u8 y sy)
          (.u16 ((x * 2 ^ y) % 2 ^ 16) sx))
    ∧ (∀ (x y : Nat) (sx sy : UIntStyle), y < 16 →
        Semantics.binAppReduces flex fuel .U16Shr (.u16 x sx) (.u8 y sy)
          (.u16 (x / 2 ^ y) sx))
    ∧ (∀ (x y : Nat) (sx sy : UIntStyle), 4294967295 < x + y →
        Semantics.binAppStuck flex fuel .U32Add (.u32 x sx) (.u32 y sy))
    ∧ (∀ (x y : Nat) (sx sy : UIntStyle), x < y →
        Semantics.binAppStuck flex fuel .U32Sub (.u32 x sx) (.u32 y sy))
    ∧ (∀ (x y : Nat) (sx sy : UIntStyle), 4294967295 < x * y →
        Semantics.binAppStuck flex fuel .U32Mul (.u32 x sx) (.u32 y sy))
    ∧ (∀ (x : Nat) (sx sy : UIntStyle),
        Semantics.binAppStuck flex fuel .U32Div (.u32 x sx) (.u32 0 sy))
    ∧ (∀ (x y : Nat) (sx sy : UIntStyle), 32 ≤ y →
        Semantics.binAppStuck flex fuel .U32Shl (.u32 x sx) (.u8 y sy))
    ∧ (∀ (x y : Nat) (sx sy : UIntStyle), 32 ≤ y →
        Semantics.binAppStuck flex fuel .U32Shr (.u32 x sx) (.u8 y sy))
    ∧ (∀ (x y : Nat) (sx sy : UIntStyle), y < 32 →
        Semantics.binAppReduces flex fuel .U32Shl (.u32 x sx) (.u8 y sy)
          (.u32 ((x * 2 ^ y) % 2 ^ 32) sx))
    ∧ (∀ (x y : Nat) (sx sy : UIntStyle), y < 32 →
        Semantics.binAppReduces flex fuel .U32Shr (.u32 x sx) (.u8 y sy)
          (.u32 (x / 2 ^ y) sx))
    ∧ (∀ (x y : Nat) (sx sy : UIntStyle), 18446744073709551615 < x + y →
        Semantics.binAppStuck flex fuel .U64Add (.u64 x sx) (.u64 y sy))
    ∧ (∀ (x y : Nat) (sx sy : UIntStyle), x < y →
        Semantics.binAppStuck flex fuel .U64Sub (.u64 x sx) (.u64 y sy))
    ∧ (∀ (x y : Nat) (sx sy : UIntStyle), 18446744073709551615 < x * y →
        Semantics.binAppStuck flex fuel .U64Mul (.u64 x sx) (.u64 y sy))
    ∧ (∀ (x : Nat) (sx sy : UIntStyle),
        Semantics.binAppStuck flex fuel .U64Div (.u64 x sx) (.u64 0 sy))
    ∧ (∀ (x y : Nat) (sx sy : UIntStyle), 64 ≤ y →
        Semantics.binAppStuck flex fuel .U64Shl (.u64 x sx) (.u8 y sy))
    ∧ (∀ (x y : Nat) (sx sy : UIntStyle), 64 ≤ y →
        Semantics.binAppStuck flex fuel .U64Shr (.u64 x sx) (.u8 y sy))
    ∧ (∀ (x y : Nat) (sx sy : UIntStyle), y < 64 →
        Semantics.binAppReduces flex fuel .U64Shl (.u64 x sx) (.u8 y sy)
          (.u64 ((x * 2 ^ y) % 2 ^ 64) sx))
    ∧ (∀ (x y : Nat) (sx sy : UIntStyle), y < 64 →
        Semantics.binAppReduces flex fuel .U64Shr (.u64 x sx) (.u8 y sy)
          (.u64 (x / 2 ^ y) sx))
    ∧ (Semantics.unAppStuck flex fuel .S8Neg (.s8 (-128)))
    ∧ (∀ (x y : Int), x + y < -128 ∨ 127 < x + y →
        Semantics.binAppStuck flex fuel .S8Add (.s8 x) (.s8 y))
    ∧ (∀ (x y : Int), x - y < -128 ∨ 127 < x - y →
        Semantics.binAppStuck flex fuel .S8Sub (.s8 x) (.s8 y))
    ∧ (∀ (x y : Int), x * y < -128 ∨ 127 < x * y →
        Semantics.binAppStuck flex fuel .S8Mul (.s8 x) (.s8 y))
    ∧ (∀ (x y : Int), y = 0 ∨ (x = -128 ∧ y = -1) →
        Semantics.binAppStuck flex fuel .S8Div (.s8 x) (.s8 y))
    ∧ (Semantics.unAppStuck flex fuel .S16Neg (.s16 (-32768)))
    ∧ (∀ (x y : Int), x + y < -32768 ∨ 32767 < x + y →
        Semantics.binAppStuck flex fuel .S16Add (.s16 x) (.s16 y))
    ∧ (∀ (x y : Int), x - y < -32768 ∨ 32767 < x - y →
        Semantics.binAppStuck flex fuel .S16Sub (.s16 x) (.s16 y))
    ∧ (∀ (x y : Int), x * y < -32768 ∨ 32767 < x * y →
        Semantics.binAppStuck flex fuel .S16Mul (.s16 x) (.s16 y))
    ∧ (∀ (x y : Int), y = 0 ∨ (x = -32768 ∧ y = -1) →
        Semantics.binAppStuck flex fuel .S16Div (.s16 x) (.s16 y))
    ∧ (Semantics.unAppStuck flex fuel .S32Neg (.s32 (-2147483648)))
    ∧ (∀ (x y : Int), x + y < -2147483648 ∨ 2147483647 < x + y →
        Semantics.binAppStuck flex fuel .S32Add (.s32 x) (.s32 y))
    ∧ (∀ (x y : Int), x - y < -2147483648 ∨ 2147483647 < x - y →
        Semantics.binAppStuck flex fuel .S32Sub (.s32 x) (.s32 y))
    ∧ (∀ (x y : Int), x * y < -2147483648 ∨ 2147483647 < x * y →
        Semantics.binAppStuck flex fuel .S32Mul (.s32 x) (.s32 y))
    ∧ (∀ (x y : Int), y = 0 ∨ (x = -2147483648 ∧ y = -1) →
        Semantics.binAppStuck flex fuel .S32Div (.s32 x) (.s32 y))
    ∧ (Semantics.unAppStuck flex fuel .S64Neg (.s64 (-9223372036854775808)))
    ∧ (∀ (x y : Int), x + y < -9223372036854775808 ∨ 9223372036854775807 < x + y →
        Semantics.binAppStuck flex fuel .S64Add (.s64 x) (.s64 y))
    ∧ (∀ (x y : Int), x - y < -9223372036854775808 ∨ 9223372036854775807 < x - y →
        Semantics.binAppStuck flex fuel .S64Sub (.s64 x) (.s64 y))
    ∧ (∀ (x y : Int), x * y < -9223372036854775808 ∨ 9223372036854775807 < x * y →
        Semantics.binAppStuck flex fuel .S64Mul (.s64 x) (.s64 y))
    ∧ (∀ (x y : Int), y = 0 ∨ (x = -9223372036854775808 ∧ y = -1) →
        Semantics.binAppStuck flex fuel .S64Div (.s64 x) (.s64 y)) := by
  have hU8Add : (∀ (x y : Nat) (sx sy : UIntStyle), 255 < x + y →
        Semantics.binAppStuck flex fuel .U8Add (.u8 x sx) (.u8 y sy)) := by
    intro x y sx sy h
    apply Semantics.funApp_stuck_of_primStep_none
    rw [Semantics.primStep_U8Add_eq]
    simp [Semantics.stepUArith, ConstLit.matchU8, Semantics.uCheckedAdd]
    omega
  have hU8Sub : (∀ (x y : Nat) (sx sy : UIntStyle), x < y →
        Semantics.binAppStuck flex fuel .U8Sub (.u8 x sx) (.u8 y sy)) := by
    intro x y sx sy h
    apply Semantics.funApp_stuck_of_primStep_none
    rw [Semantics.primStep_U8Sub_eq]
    simp [Semantics.stepUArith, ConstLit.matchU8, Semantics.uCheckedSub]
    omega
  have hU8Mul : (∀ (x y : Nat) (sx sy : UIntStyle), 255 < x * y →
        Semantics.binAppStuck flex fuel .U8Mul (.u8 x sx) (.u8 y sy)) := by
    intro x y sx sy h
    apply Semantics.funApp_stuck_of_primStep_none
    rw [Semantics.primStep_U8Mul_eq]
    simp [Semantics.stepUArith, ConstLit.matchU8, Semantics.uCheckedMul]
    omega
  have hU8Div : (∀ (x : Nat) (sx sy : UIntStyle),
        Semantics.binAppStuck flex fuel .U8Div (.u8 x sx) (.u8 0 sy)) := by
    intro x sx sy
    apply Semantics.funApp_stuck_of_primStep_none
    rw [Semantics.primStep_U8Div_eq]
    simp [Semantics.stepUArith, ConstLit.matchU8, Semantics.uCheckedDiv]
  have hU8Shl : (∀ (x y : Nat) (sx sy : UIntStyle), 8 ≤ y →
        Semantics.binAppStuck flex fuel .U8Shl (.u8 x sx) (.u8 y sy)) := by
    intro x y sx sy h
    apply Semantics.funApp_stuck_of_primStep_none
    rw [Semantics.primStep_U8Shl_eq]
    simp [Semantics.stepUShift, ConstLit.matchU8, ConstLit.matchU8, Semantics.uCheckedShl]
    omega
  have hU8Shr : (∀ (x y : Nat) (sx sy : UIntStyle), 8 ≤ y →
        Semantics.binAppStuck flex fuel .U8Shr (.u8 x sx) (.u8 y sy)) := by
    intro x y sx sy h
    apply Semantics.funApp_stuck_of_primStep_none
    rw [Semantics.primStep_U8Shr_eq]
    simp [Semantics.stepUShift, ConstLit.matchU8, ConstLit.matchU8, Semantics.uCheckedShr]
    omega
  have hU8ShlRed : (∀ (x y : Nat) (sx sy : UIntStyle), y < 8 →
        Semantics.binAppReduces flex fuel .U8Shl (.u8 x sx) (.u8 y sy)
          (.u8 ((x * 2 ^ y) % 2 ^ 8) sx)) := by
    intro x y sx sy h
    apply Semantics.funApp_reduce_of_primStep_some
    rw [Semantics.primStep_U8Shl_eq]
    simp [Semantics.stepUShift, ConstLit.matchU8, ConstLit.matchU8, Semantics.uCheckedShl, h]
  have hU8ShrRed : (∀ (x y : Nat) (sx sy : UIntStyle), y < 8 →
        Semantics.binAppReduces flex fuel .U8Shr (.u8 x sx) (.u8 y sy)
          (.u8 (x / 2 ^ y) sx)) := by
    intro x y sx sy h
    apply Semantics.funApp_reduce_of_primStep_some
    rw [Semantics.primStep_U8Shr_eq]
    simp [Semantics.stepUShift, ConstLit.matchU8, ConstLit.matchU8, Semantics.uCheckedShr, h]
  have hU16Add : (∀ (x y : Nat) (sx sy : UIntStyle), 65535 < x + y →
        Semantics.binAppStuck flex fuel .U16Add (.u16 x sx) (.u16 y sy)) := by
    intro x y sx sy h
    apply Semantics.funApp_stuck_of_primStep_none
    rw [Semantics.primStep_U16Add_eq]
    simp [Semantics.stepUArith, ConstLit.matchU16, Semantics.uCheckedAdd]
    omega
  have hU16Sub : (∀ (x y : Nat) (sx sy : UIntStyle), x < y →
        Semantics.binAppStuck flex fuel .U16Sub (.u16 x sx) (.u16 y sy)) := by
    intro x y sx sy h
    apply Semantics.funApp_stuck_of_primStep_none
    rw [Semantics.primStep_U16Sub_eq]
    simp [Semantics.stepUArith, ConstLit.matchU16, Semantics.uCheckedSub]
    omega
  have hU16Mul : (∀ (x y : Nat) (sx sy : UIntStyle), 65535 < x * y →
        Semantics.binAppStuck flex fuel .U16Mul (.u16 x sx) (.u16 y sy)) := by
    intro x y sx sy h
    apply Semantics.funApp_stuck_of_primStep_none
    rw [Semantics.primStep_U16Mul_eq]
    simp [Semantics.stepUArith, ConstLit.matchU16, Semantics.uCheckedMul]
    omega
  have hU16Div : (∀ (x : Nat) (sx sy : UIntStyle),
        Semantics.binAppStuck flex fuel .U16Div (.u16 x sx) (.u16 0 sy)) := by
    intro x sx sy
    apply Semantics.funApp_stuck_of_primStep_none
    rw [Semantics.primStep_U16Div_eq]
    simp [Semantics.stepUArith, ConstLit.matchU16, Semantics.uCheckedDiv]
  have hU16Shl : (∀ (x y : Nat) (sx sy : UIntStyle), 16 ≤ y →
        Semantics.binAppStuck flex fuel .U16Shl (.u16 x sx) (.u8 y sy)) := by
    intro x y sx sy h
    apply Semantics.funApp_stuck_of_primStep_none
    rw [Semantics.primStep_U16Shl_eq]
    simp [Semantics.stepUShift, ConstLit.matchU16, ConstLit.matchU8, Semantics.uCheckedShl]
    omega
  have hU16Shr : (∀ (x y : Nat) (sx sy : UIntStyle), 16 ≤ y →
        Semantics.binAppStuck flex fuel .U16Shr (.u16 x sx) (.u8 y sy)) := by
    intro x y sx sy h
    apply Semantics.funApp_stuck_of_primStep_none
    rw [Semantics.primStep_U16Shr_eq]
    simp [Semantics.stepUShift, ConstLit.matchU16, ConstLit.matchU8, Semantics.uCheckedShr]
    omega
  have hU16ShlRed : (∀ (x y : Nat) (sx sy : UIntStyle), y < 16 →
        Semantics.binAppReduces flex fuel .U16Shl (.u16 x sx) (.u8 y sy)
          (.u16 ((x * 2 ^ y) % 2 ^ 16) sx)) := by
    intro x y sx sy h
    apply Semantics.funApp_reduce_of_primStep_some
    rw [Semantics.primStep_U16Shl_eq]
    simp [Semantics.stepUShift, ConstLit.matchU16, ConstLit.matchU8, Semantics.uCheckedShl, h]
  have hU16ShrRed : (∀ (x y : Nat) (sx sy : UIntStyle), y < 16 →
        Semantics.binAppReduces flex fuel .U16Shr (.u16 x sx) (.u8 y sy)
          (.u16 (x / 2 ^ y) sx)) := by
    intro x y sx sy h
    apply Semantics.funApp_reduce_of_primStep_some
    rw [Semantics.primStep_U16Shr_eq]
    simp [Semantics.stepUShift, ConstLit.matchU16, ConstLit.matchU8, Semantics.uCheckedShr, h]
  have hU32Add : (∀ (x y : Nat) (sx sy : UIntStyle), 4294967295 < x + y →
        Semantics.binAppStuck flex fuel .U32Add (.u32 x sx) (.u32 y sy)) := by
    intro x y sx sy h
    apply Semantics.funApp_stuck_of_primStep_none
    rw [Semantics.primStep_U32Add_eq]
    simp [Semantics.stepUArith, ConstLit.matchU32, Semantics.uCheckedAdd]
    omega
  have hU32Sub : (∀ (x y : Nat) (sx sy : UIntStyle), x < y →
        Semantics.binAppStuck flex fuel .U32Sub (.u32 x sx) (.u32 y sy)) := by
    intro x y sx sy h
    apply Semantics.funApp_stuck_of_primStep_none
    rw [Semantics.primStep_U32Sub_eq]
    simp [Semantics.stepUArith, ConstLit.matchU32, Semantics.uCheckedSub]
    omega
  have hU32Mul : (∀ (x y : Nat) (sx sy : UIntStyle), 4294967295 < x * y →
        Semantics.binAppStuck flex fuel .U32Mul (.u32 x sx) (.u32 y sy)) := by
    intro x y sx sy h
    apply Semantics.funApp_stuck_of_primStep_none
    rw [Semantics.primStep_U32Mul_eq]
    simp [Semantics.stepUArith, ConstLit.matchU32, Semantics.uCheckedMul]
    omega
  have hU32Div : (∀ (x : Nat) (sx sy : UIntStyle),
        Semantics.binAppStuck flex fuel .U32Div (.u32 x sx) (.u32 0 sy)) := by
    intro x sx sy
    apply Semantics.funApp_stuck_of_primStep_none
    rw [Semantics.primStep_U32Div_eq]
    simp [Semantics.stepUArith, ConstLit.matchU32, Semantics.uCheckedDiv]
  have hU32Shl : (∀ (x y : Nat) (sx sy : UIntStyle), 32 ≤ y →
        Semantics.binAppStuck flex fuel .U32Shl (.u32 x sx) (.u8 y sy)) := by
    intro x y sx sy h
    apply Semantics.funApp_stuck_of_primStep_none
    rw [Semantics.primStep_U32Shl_eq]
    simp [Semantics.stepUShift, ConstLit.matchU32, ConstLit.matchU8, Semantics.uCheckedShl]
    omega
  have hU32Shr : (∀ (x y : Nat) (sx sy : UIntStyle), 32 ≤ y →
        Semantics.binAppStuck flex fuel .U32Shr (.u32 x sx) (.u8 y sy)) := by
    intro x y sx sy h
    apply Semantics.funApp_stuck_of_primStep_none
    rw [Semantics.primStep_U32Shr_eq]
    simp [Semantics.stepUShift, ConstLit.matchU32, ConstLit.matchU8, Semantics.uCheckedShr]
    omega
  have hU32ShlRed : (∀ (x y : Nat) (sx sy : UIntStyle), y < 32 →
        Semantics.binAppReduces flex fuel .U32Shl (.u32 x sx) (.u8 y sy)
          (.u32 ((x * 2 ^ y) % 2 ^ 32) sx)) := by
    intro x y sx sy h
    apply Semantics.funApp_reduce_of_primStep_some
    rw [Semantics.primStep_U32Shl_eq]
    simp [Semantics.stepUShift, ConstLit.matchU32, ConstLit.matchU8, Semantics.uCheckedShl, h]
  have hU32ShrRed : (∀ (x y : Nat) (sx sy : UIntStyle), y < 32 →
        Semantics.binAppReduces flex fuel .U32Shr (.u32 x sx) (.u8 y sy)
          (.u32 (x / 2 ^ y) sx)) := by
    intro x y sx sy h
    apply Semantics.funApp_reduce_of_primStep_some
    rw [Semantics.primStep_U32Shr_eq]
    simp [Semantics.stepUShift, ConstLit.matchU32, ConstLit.matchU8, Semantics.uCheckedShr, h]
  have hU64Add : (∀ (x y : Nat) (sx sy : UIntStyle), 18446744073709551615 < x + y →
        Semantics.binAppStuck flex fuel .U64Add (.u64 x sx) (.u64 y sy)) := by
    intro x y sx sy h
    apply Semantics.funApp_stuck_of_primStep_none
    rw [Semantics.primStep_U64Add_eq]
    simp [Semantics.stepUArith, ConstLit.matchU64, Semantics.uCheckedAdd]
    omega
  have hU64Sub : (∀ (x y : Nat) (sx sy : UIntStyle), x < y →
        Semantics.binAppStuck flex fuel .U64Sub (.u64 x sx) (.u64 y sy)) := by
    intro x y sx sy h
    apply Semantics.funApp_stuck_of_primStep_none
    rw [Semantics.primStep_U64Sub_eq]
    simp [Semantics.stepUArith, ConstLit.matchU64, Semantics.uCheckedSub]
    omega
  have hU64Mul : (∀ (x y : Nat) (sx sy : UIntStyle), 18446744073709551615 < x * y →
        Semantics.binAppStuck flex fuel .U64Mul (.u64 x sx) (.u64 y sy)) := by
    intro x y sx sy h
    apply Semantics.funApp_stuck_of_primStep_none
    rw [Semantics.primStep_U64Mul_eq]
    simp [Semantics.stepUArith, ConstLit.matchU64, Semantics.uCheckedMul]
    omega
  have hU64Div : (∀ (x : Nat) (sx sy : UIntStyle),
        Semantics.binAppStuck flex fuel .U64Div (.u64 x sx) (.u64 0 sy)) := by
    intro x sx sy
    apply Semantics.funApp_stuck_of_primStep_none
    rw [Semantics.primStep_U64Div_eq]
    simp [Semantics.stepUArith, ConstLit.matchU64, Semantics.uCheckedDiv]
  have hU64Shl : (∀ (x y : Nat) (sx sy : UIntStyle), 64 ≤ y →
        Semantics.binAppStuck flex fuel .U64Shl (.u64 x sx) (.u8 y sy)) := by
    intro x y sx sy h
    apply Semantics.funApp_stuck_of_primStep_none
    rw [Semantics.primStep_U64Shl_eq]
    simp [Semantics.stepUShift, ConstLit.matchU64, ConstLit.matchU8, Semantics.uCheckedShl]
    omega
  have hU64Shr : (∀ (x y : Nat) (sx sy : UIntStyle), 64 ≤ y →
        Semantics.binAppStuck flex fuel .U64Shr (.u64 x sx) (.u8 y sy)) := by
    intro x y sx sy h
    apply Semantics.funApp_stuck_of_primStep_none
    rw [Semantics.primStep_U64Shr_eq]
    simp [Semantics.stepUShift, ConstLit.matchU64, ConstLit.matchU8, Semantics.uCheckedShr]
    omega
  have hU64ShlRed : (∀ (x y : Nat) (sx sy : UIntStyle), y < 64 →
        Semantics.binAppReduces flex fuel .U64Shl (.u64 x sx) (.u8 y sy)
          (.u64 ((x * 2 ^ y) % 2 ^ 64) sx)) := by
    intro x y sx sy h
    apply Semantics.funApp_reduce_of_primStep_some
    rw [Semantics.primStep_U64Shl_eq]
    simp [Semantics.stepUShift, ConstLit.matchU64, ConstLit.matchU8, Semantics.uCheckedShl, h]
  have hU64ShrRed : (∀ (x y : Nat) (sx sy : UIntStyle), y < 64 →
        Semantics.binAppReduces flex fuel .U64Shr (.u64 x sx) (.u8 y sy)
          (.u64 (x / 2 ^ y) sx)) := by
    intro x y sx sy h
    apply Semantics.funApp_reduce_of_primStep_some
    rw [Semantics.primStep_U64Shr_eq]
    simp [Semantics.stepUShift, ConstLit.matchU64, ConstLit.matchU8, Semantics.uCheckedShr, h]
  have hS8Neg : (Semantics.unAppStuck flex fuel .S8Neg (.s8 (-128))) := by
    apply Semantics.funApp_stuck_of_primStep_none
    rw [Semantics.primStep_S8Neg_eq]
    simp [Semantics.stepS1, ConstLit.matchS8, Semantics.iCheckedNeg]
  have hS8Add : (∀ (x y : Int), x + y < -128 ∨ 127 < x + y →
        Semantics.binAppStuck flex fuel .S8Add (.s8 x) (.s8 y)) := by
    intro x y h
    apply Semantics.funApp_stuck_of_primStep_none
    rw [Semantics.primStep_S8Add_eq]
    simp [Semantics.stepSArith, ConstLit.matchS8, Semantics.iCheckedAdd]
    omega
  have hS8Sub : (∀ (x y : Int), x - y < -128 ∨ 127 < x - y →
        Semantics.binAppStuck flex fuel .S8Sub (.s8 x) (.s8 y)) := by
    intro x y h
    apply Semantics.funApp_stuck_of_primStep_none
    rw [Semantics.primStep_S8Sub_eq]
    simp [Semantics.stepSArith, ConstLit.matchS8, Semantics.iCheckedSub]
    omega
  have hS8Mul : (∀ (x y : Int), x * y < -128 ∨ 127 < x * y →
        Semantics.binAppStuck flex fuel .S8Mul (.s8 x) (.s8 y)) := by
    intro x y h
    apply Semantics.funApp_stuck_of_primStep_none
    rw [Semantics.primStep_S8Mul_eq]
    simp [Semantics.stepSArith, ConstLit.matchS8, Semantics.iCheckedMul]
    omega
  have hS8Div : (∀ (x y : Int), y = 0 ∨ (x = -128 ∧ y = -1) →
        Semantics.binAppStuck flex fuel .S8Div (.s8 x) (.s8 y)) := by
    intro x y h
    apply Semantics.funApp_stuck_of_primStep_none
    rw [Semantics.primStep_S8Div_eq]
    rcases h with rfl | ⟨rfl, rfl⟩ <;>
      simp [Semantics.stepSArith, ConstLit.matchS8, Semantics.iCheckedDiv]
  have hS16Neg : (Semantics.unAppStuck flex fuel .S16Neg (.s16 (-32768))) := by
    apply Semantics.funApp_stuck_of_primStep_none
    rw [Semantics.primStep_S16Neg_eq]
    simp [Semantics.stepS1, ConstLit.matchS16, Semantics.iCheckedNeg]
  have hS16Add : (∀ (x y : Int), x + y < -32768 ∨ 32767 < x + y →
        Semantics.binAppStuck flex fuel .S16Add (.s16 x) (.s16 y)) := by
    intro x y h
    apply Semantics.funApp_stuck_of_primStep_none
    rw [Semantics.primStep_S16Add_eq]
    simp [Semantics.stepSArith, ConstLit.matchS16, Semantics.iCheckedAdd]
    omega
  have hS16Sub : (∀ (x y : Int), x - y < -32768 ∨ 32767 < x - y →
        Semantics.binAppStuck flex fuel .S16Sub (.s16 x) (.s16 y)) := by
    intro x y h
    apply Semantics.funApp_stuck_of_primStep_none
    rw [Semantics.primStep_S16Sub_eq]
    simp [Semantics.stepSArith, ConstLit.matchS16, Semantics.iCheckedSub]
    omega
  have hS16Mul : (∀ (x y : Int), x * y < -32768 ∨ 32767 < x * y →
        Semantics.binAppStuck flex fuel .S16Mul (.s16 x) (.s16 y)) := by
    intro x y h
    apply Semantics.funApp_stuck_of_primStep_none
    rw [Semantics.primStep_S16Mul_eq]
    simp [Semantics.stepSArith, ConstLit.matchS16, Semantics.iCheckedMul]
    omega
  have hS16Div : (∀ (x y : Int), y = 0 ∨ (x = -32768 ∧ y = -1) →
        Semantics.binAppStuck flex fuel .S16Div (.s16 x) (.s16 y)) := by
    intro x y h
    apply Semantics.funApp_stuck_of_primStep_none
    rw [Semantics.primStep_S16Div_eq]
    rcases h with rfl | ⟨rfl, rfl⟩ <;>
      simp [Semantics.stepSArith, ConstLit.matchS16, Semantics.iCheckedDiv]
  have hS32Neg : (Semantics.unAppStuck flex fuel .S32Neg (.s32 (-2147483648))) := by
    apply Semantics.funApp_stuck_of_primStep_none
    rw [Semantics.primStep_S32Neg_eq]
    simp [Semantics.stepS1, ConstLit.matchS32, Semantics.iCheckedNeg]
  have hS32Add : (∀ (x y : Int), x + y < -2147483648 ∨ 2147483647 < x + y →
        Semantics.binAppStuck flex fuel .S32Add (.s32 x) (.s32 y)) := by
    intro x y h
    apply Semantics.funApp_stuck_of_primStep_none
    rw [Semantics.primStep_S32Add_eq]
    simp [Semantics.stepSArith, ConstLit.matchS32, Semantics.iCheckedAdd]
    omega
  have hS32Sub : (∀ (x y : Int), x - y < -2147483648 ∨ 2147483647 < x - y →
        Semantics.binAppStuck flex fuel .S32Sub (.s32 x) (.s32 y)) := by
    intro x y h
    apply Semantics.funApp_stuck_of_primStep_none
    rw [Semantics.primStep_S32Sub_eq]
    simp [Semantics.stepSArith, ConstLit.matchS32, Semantics.iCheckedSub]
    omega
  have hS32Mul : (∀ (x y : Int), x * y < -2147483648 ∨ 2147483647 < x * y →
        Semantics.binAppStuck flex fuel .S32Mul (.s32 x) (.s32 y)) := by
    intro x y h
    apply Semantics.funApp_stuck_of_primStep_none
    rw [Semantics.primStep_S32Mul_eq]
    simp [Semantics.stepSArith, ConstLit.matchS32, Semantics.iCheckedMul]
    omega
  have hS32Div : (∀ (x y : Int), y = 0 ∨ (x = -2147483648 ∧ y = -1) →
        Semantics.binAppStuck flex fuel .S32Div (.s32 x) (.s32 y)) := by
    intro x y h
    apply Semantics.funApp_stuck_of_primStep_none
    rw [Semantics.primStep_S32Div_eq]
    rcases h with rfl | ⟨rfl, rfl⟩ <;>
      simp [Semantics.stepSArith, ConstLit.matchS32, Semantics.iCheckedDiv]
  have hS64Neg : (Semantics.unAppStuck flex fuel .S64Neg (.s64 (-9223372036854775808))) := by
    apply Semantics.funApp_stuck_of_primStep_none
    rw [Semantics.primStep_S64Neg_eq]
    simp [Semantics.stepS1, ConstLit.matchS64, Semantics.iCheckedNeg]
  have hS64Add : (∀ (x y : Int), x + y < -9223372036854775808 ∨ 9223372036854775807 < x + y →
        Semantics.binAppStuck flex fuel .S64Add (.s64 x) (.s64 y)) := by
    intro x y h
    apply Semantics.funApp_stuck_of_primStep_none
    rw [Semantics.primStep_S64Add_eq]
    simp [Semantics.stepSArith, ConstLit.matchS64, Semantics.iCheckedAdd]
    omega
  have hS64Sub : (∀ (x y : Int), x - y < -9223372036854775808 ∨ 9223372036854775807 < x - y →
        Semantics.binAppStuck flex fuel .S64Sub (.s64 x) (.s64 y)) := by
    intro x y h
    apply Semantics.funApp_stuck_of_primStep_none
    rw [Semantics.primStep_S64Sub_eq]
    simp [Semantics.stepSArith, ConstLit.matchS64, Semantics.iCheckedSub]
    omega
  have hS64Mul : (∀ (x y : Int), x * y < -9223372036854775808 ∨ 9223372036854775807 < x * y →
        Semantics.binAppStuck flex fuel .S64Mul (.s64 x) (.s64 y)) := by
    intro x y h
    apply Semantics.funApp_stuck_of_primStep_none
    rw [Semantics.primStep_S64Mul_eq]
    simp [Semantics.stepSArith, ConstLit.matchS64, Semantics.iCheckedMul]
    omega
  have hS64Div : (∀ (x y : Int), y = 0 ∨ (x = -9223372036854775808 ∧ y = -1) →
        Semantics.binAppStuck flex fuel .S64Div (.s64 x) (.s64 y)) := by
    intro x y h
    apply Semantics.funApp_stuck_of_primStep_none
    rw [Semantics.primStep_S64Div_eq]
    rcases h with rfl | ⟨rfl, rfl⟩ <;>
      simp [Semantics.stepSArith, ConstLit.matchS64, Semantics.iCheckedDiv]
  exact ⟨hU8Add, hU8Sub, hU8Mul, hU8Div, hU8Shl, hU8Shr, hU8ShlRed, hU8ShrRed, hU16Add, hU16Sub, hU16Mul, hU16Div, hU16Shl, hU16Shr, hU16ShlRed, hU16ShrRed, hU32Add, hU32Sub, hU32Mul, hU32Div, hU32Shl, hU32Shr, hU32ShlRed, hU32ShrRed, hU64Add, hU64Sub, hU64Mul, hU64Div, hU64Shl, hU64Shr, hU64ShlRed, hU64ShrRed, hS8Neg, hS8Add, hS8Sub, hS8Mul, hS8Div, hS16Neg, hS16Add, hS16Sub, hS16Mul, hS16Div, hS32Neg, hS32Add, hS32Sub, hS32Mul, hS32Div, hS64Neg, hS64Add, hS64Sub, hS64Mul, hS64Div⟩

/-- Witness for C2 (amended): overflowing `u8` addition `200 + 100`
stays stuck; the out-of-range shift `1 <<< 8` stays stuck; the in-range
shift `128 <<< 1` reduces to `0`; negating `S8` `-128` stays stuck. -/
theorem checked_prim_ops_witness :
    Semantics.binAppStuck [] 0 .U8Add (.u8 200 .decimal) (.u8 100 .decimal)
    ∧ Semantics.binAppStuck [] 0 .U8Shl (.u8 1 .decimal) (.u8 8 .decimal)
    ∧ Semantics.binAppReduces [] 0 .U8Shl (.u8 128 .decimal) (.u8 1 .decimal)
        (.u8 ((128 * 2 ^ 1) % 2 ^ 8) .decimal)
    ∧ Semantics.unAppStuck [] 0 .S8Neg (.s8 (-128)) := by
  obtain ⟨c1, c2, c3, c4, c5, c6, c7, c8, c9, c10, c11, c12, c13, c14, c15, c16, c17, c18, c19, c20, c21, c22, c23, c24, c25, c26, c27, c28, c29, c30, c31, c32, c33, c34, c35, c36, c37, c38, c39, c40, c41, c42, c43, c44, c45, c46, c47, c48, c49, c50, c51, c52⟩ := checked_prim_ops [] 0
  exact ⟨c1 200 100 .decimal .decimal (by norm_num),
    c5 1 8 .decimal .decimal (by norm_num),
    c7 128 1 .decimal .decimal (by norm_num), c33⟩


namespace Elab

/-- The constant ordering is transitive. -/
theorem constLt_trans {a b c : ConstLit} (h1 : constLt a b) (h2 : constLt b c) :
    constLt a c := by
  unfold constLt at *; omega

/-- A strictly smaller constant is not `cmp`-equal. -/
theorem not_eqv_of_lt {a b : ConstLit} (h : constLt a b) : ¬ constEqv a b := by
  unfold constLt constEqv at *; omega

/-- The constant comparison is total. -/
theorem constLt_trichotomy (a b : ConstLit) :
    constLt a b ∨ constEqv a b ∨ constLt b a := by
  unfold constLt constEqv; omega

/-- `cmp`-equality is symmetric. -/
theorem constEqv_symm {a b : ConstLit} (h : constEqv a b) : constEqv b a := by
  unfold constEqv at *; omega

/-- Members of an ordered insertion: the new branch or an old one. -/
theorem mem_insertBranch {α : Type} (c : ConstLit) (b : α) (l : List (ConstLit × α)) :
    ∀ q ∈ insertBranch c b l, q = (c, b) ∨ q ∈ l := by
  induction l with
  | nil =>
      intro q hq
      simpa [insertBranch] using hq
  | cons p rest ih =>
      obtain ⟨c', b'⟩ := p
      intro q hq
      by_cases hlt : constLt c c'
      · simp only [insertBranch, if_pos hlt, List.mem_cons] at hq
        rcases hq with rfl | hq
        · exact Or.inl rfl
        · exact Or.inr (by simpa using hq)
      · simp only [insertBranch, if_neg hlt, List.mem_cons] at hq
        rcases hq with rfl | hq
        · exact Or.inr (by simp)
        · rcases ih q hq with rfl | h
          · exact Or.inl rfl
          · exact Or.inr (by simp [h])

/-- Ordered insertion adds exactly one branch. -/
theorem insertBranch_length {α : Type} (c : ConstLit) (b : α) (l : List (ConstLit × α)) :
    (insertBranch c b l).length = l.length + 1 := by
  induction l with
  | nil => rfl
  | cons p rest ih =>
      obtain ⟨c', b'⟩ := p
      by_cases hlt : constLt c c' <;> simp [insertBranch, hlt, ih]

/-- Ordered insertion of a constant not `cmp`-equal to any accumulated
one preserves strict sortedness. -/
theorem insertBranch_pairwise {α : Type} (c : ConstLit) (b : α) (l : List (ConstLit × α))
    (hl : l.Pairwise (fun p q => constLt p.1 q.1))
    (hne : ∀ p ∈ l, ¬ constEqv p.1 c) :
    (insertBranch c b l).Pairwise (fun p q => constLt p.1 q.1) := by
  induction l with
  | nil => simp [insertBranch]
  | cons p rest ih =>
      obtain ⟨c', b'⟩ := p
      rw [List.pairwise_cons] at hl
      obtain ⟨hall, hrest⟩ := hl
      by_cases hlt : constLt c c'
      · simp only [insertBranch, if_pos hlt]
        refine List.Pairwise.cons ?_ (List.Pairwise.cons hall hrest)
        intro q hq
        rcases List.mem_cons.mp hq with rfl | hq
        · exact hlt
        · exact constLt_trans hlt (hall q hq)
      · have hgt : constLt c' c := by
          rcases constLt_trichotomy c c' with h | h | h
          · exact absurd h hlt
          · exact absurd (constEqv_symm h) (hne (c', b') (by simp))
          · exact h
        simp only [insertBranch, if_neg hlt]
        refine List.Pairwise.cons ?_ (ih hrest (fun p hp => hne p (by simp [hp])))
        intro q hq
        rcases mem_insertBranch c b rest q hq with rfl | hq
        · exact hgt
        · exact hall q hq

/-- Every known finite cardinality is at least two. -/
theorem numInhabitants_two_le (c : ConstLit) (n : Nat) (h : numInhabitants c = some n) :
    2 ≤ n := by
  cases c <;> simp [numInhabitants] at h <;> omega

/-- The branch accumulator of `elab_match_const` stays strictly sorted. -/
theorem elabMatchConstLoop_sorted {α : Type} (errorExpr : α) (reach : Bool) :
    ∀ (eqs : List (CheckedPattern × α)) (acc : List (ConstLit × α)),
      acc.Pairwise (fun p q => constLt p.1 q.1) →
      (elabMatchConstLoop errorExpr reach acc eqs).branches.Pairwise
        (fun p q => constLt p.1 q.1) := by
  intro eqs
  induction eqs with
  | nil =>
      intro acc hacc
      simpa [elabMatchConstLoop] using hacc
  | cons pb rest ih =>
      intro acc hacc
      obtain ⟨pattern, body⟩ := pb
      cases pattern with
      | constLit c =>
          have hPB : (if acc.any (fun p => constEqv p.1 c) then acc
              else insertBranch c body acc).Pairwise (fun p q => constLt p.1 q.1) := by
            by_cases hdup : acc.any (fun p => constEqv p.1 c)
            · simpa [hdup] using hacc
            · have hne : ∀ p ∈ acc, ¬ constEqv p.1 c := by
                simpa using hdup
              simpa [hdup] using insertBranch_pairwise c body acc hacc hne
          simp only [elabMatchConstLoop]
          rcases hn : numInhabitants c with _ | n
          · simpa [hn] using ih _ hPB
          · by_cases hle : n ≤ (if acc.any (fun p => constEqv p.1 c) then acc
                else insertBranch c body acc).length
            · simpa [hn, hle] using hPB
            · simpa [hn, hle] using ih _ hPB
      | binder name => simpa [elabMatchConstLoop] using hacc
      | placeholder => simpa [elabMatchConstLoop] using hacc
      | reportedError => simpa [elabMatchConstLoop] using hacc

/-- The default arm of `elab_match_const` is elided exactly on the
exhaustiveness exit: under a type-homogeneous run (`ν` the common
cardinality) and an accumulator still below the cardinality, the result
has no default only if the branch count reached the cardinality, and
keeps a default only while the branch count stays below it. -/
theorem elabMatchConstLoop_default {α : Type} (errorExpr : α) (reach : Bool) (ν : Option Nat) :
    ∀ (eqs : List (CheckedPattern × α)) (acc : List (ConstLit × α)),
      (∀ pb ∈ eqs, ∀ c, pb.1 = CheckedPattern.constLit c → numInhabitants c = ν) →
      (∀ n, ν = some n → acc.length < n) →
      ((elabMatchConstLoop errorExpr reach acc eqs).defaultCase = none →
          ∃ n, ν = some n ∧ (elabMatchConstLoop errorExpr reach acc eqs).branches.length = n)
      ∧ ((elabMatchConstLoop errorExpr reach acc eqs).defaultCase ≠ none →
          ∀ n, ν = some n →
            (elabMatchConstLoop errorExpr reach acc eqs).branches.length < n) := by
  intro eqs
  induction eqs with
  | nil =>
      intro acc hν hlen
      constructor
      · intro h
        simp [elabMatchConstLoop] at h
      · intro _ n hn
        simpa [elabMatchConstLoop] using hlen n hn
  | cons pb rest ih =>
      intro acc hν hlen
      obtain ⟨pattern, body⟩ := pb
      cases pattern with
      | constLit c =>
          have hc : numInhabitants c = ν := hν (CheckedPattern.constLit c, body) (by simp) c rfl
          have hν' : ∀ pb ∈ rest, ∀ c', pb.1 = CheckedPattern.constLit c' →
              numInhabitants c' = ν := fun pb hpb => hν pb (by simp [hpb])
          have hlen' : (if acc.any (fun p => constEqv p.1 c) then acc
              else insertBranch c body acc).length ≤ acc.length + 1 := by
            by_cases hdup : acc.any (fun p => constEqv p.1 c) <;>
              simp [hdup, insertBranch_length]
          rcases hn : ν with _ | n
          · have hcn : numInhabitants c = none := by rw [hc, hn]
            have hrec := ih (if acc.any (fun p => constEqv p.1 c) then acc
                else insertBranch c body acc) hν' (by simp [hn])
            rw [hn] at hrec
            constructor
            · intro h
              simp only [elabMatchConstLoop, hcn] at h ⊢
              exact hrec.1 h
            · intro h n hfalse
              simp at hfalse
          · have hacc : acc.length < n := hlen n hn
            rw [hn] at hc
            by_cases hle : n ≤ (if acc.any (fun p => constEqv p.1 c) then acc
                else insertBranch c body acc).length
            · have heq : (if acc.any (fun p => constEqv p.1 c) then acc
                  else insertBranch c body acc).length = n := by omega
              constructor
              · intro _
                refine ⟨n, rfl, ?_⟩
                simp only [elabMatchConstLoop, hc, if_pos hle]
                simpa using heq
              · intro h
                exfalso
                apply h
                simp only [elabMatchConstLoop, hc, if_pos hle]
            · have hrec := ih (if acc.any (fun p => constEqv p.1 c) then acc
                  else insertBranch c body acc) hν' (fun m hm => by
                    rw [hn] at hm
                    injection hm with hnm
                    omega)
              rw [hn] at hrec
              constructor
              · intro h
                simp only [elabMatchConstLoop, hc, if_neg hle] at h ⊢
                exact hrec.1 h
              · intro h m hm
                injection hm with hnm
                subst hnm
                simp only [elabMatchConstLoop, hc, if_neg hle] at h ⊢
                exact hrec.2 h n rfl
      | binder name =>
          constructor
          · intro h
            simp [elabMatchConstLoop] at h
          · intro _ n hn
            simpa [elabMatchConstLoop] using hlen n hn
      | placeholder =>
          constructor
          · intro h
            simp [elabMatchConstLoop] at h
          · intro _ n hn
            simpa [elabMatchConstLoop] using hlen n hn
      | reportedError =>
          constructor
          · intro h
            simp [elabMatchConstLoop] at h
          · intro _ n hn
            simpa [elabMatchConstLoop] using hlen n hn

end Elab

/-- C4: compiling a run of constant patterns yields branches strictly
sorted by the constant ordering with no `cmp`-equal duplicates; a
repeated constant pushes `UnreachablePattern` (and, by sortedness, is
dropped); under a type-homogeneous run the default arm is elided exactly
when the accumulated branch count reaches the scrutinee constant type's
known finite cardinality. -/
theorem elab_match_const_invariants {α : Type} (errorExpr : α) (isReachable : Bool)
    (c₀ : ConstLit) (b₀ : α) (equations : List (Elab.CheckedPattern × α)) :
    ((Elab.elabMatchConst errorExpr isReachable c₀ b₀ equations).branches.Pairwise
        (fun p q => Elab.constLt p.1 q.1))
    ∧ ((Elab.elabMatchConst errorExpr isReachable c₀ b₀ equations).branches.Pairwise
        (fun p q => ¬ Elab.constEqv p.1 q.1))
    ∧ (∀ (acc : List (ConstLit × α)) (c : ConstLit) (b : α)
        (rest : List (Elab.CheckedPattern × α)),
        (∃ p ∈ acc, Elab.constEqv p.1 c) →
        Elab.Message.unreachablePattern
          ∈ (Elab.elabMatchConstLoop errorExpr isReachable acc
              ((Elab.CheckedPattern.constLit c, b) :: rest)).messages)
    ∧ ((∀ pb ∈ equations, ∀ c, pb.1 = Elab.CheckedPattern.constLit c →
          Elab.numInhabitants c = Elab.numInhabitants c₀) →
        ((Elab.elabMatchConst errorExpr isReachable c₀ b₀ equations).defaultCase = none
          ↔ ∃ n, Elab.numInhabitants c₀ = some n
              ∧ (Elab.elabMatchConst errorExpr isReachable c₀ b₀ equations).branches.length
                  = n)) := by
  have hsorted := Elab.elabMatchConstLoop_sorted errorExpr isReachable equations
    [(c₀, b₀)] (by simp)
  refine ⟨hsorted, hsorted.imp (fun h => Elab.not_eqv_of_lt h), ?_, ?_⟩
  · rintro acc c b rest ⟨p, hp, hpe⟩
    have hdup : acc.any (fun p => Elab.constEqv p.1 c) = true :=
      List.any_eq_true.mpr ⟨p, hp, by simpa using hpe⟩
    simp only [Elab.elabMatchConstLoop, hdup]
    rcases hn : Elab.numInhabitants c with _ | n
    · simp
    · by_cases hle : n ≤ acc.length <;> simp [hle]
  · intro hhom
    have hlen₀ : ∀ n, Elab.numInhabitants c₀ = some n → [(c₀, b₀)].length < n := by
      intro n hn
      have := Elab.numInhabitants_two_le c₀ n hn
      simp
      omega
    have hchar := Elab.elabMatchConstLoop_default errorExpr isReachable
      (Elab.numInhabitants c₀) equations [(c₀, b₀)] hhom hlen₀
    constructor
    · exact hchar.1
    · rintro ⟨n, hn, hbl⟩
      by_contra hne
      have hlt := hchar.2 hne n hn
      have hbl' : (Elab.elabMatchConstLoop errorExpr isReachable [(c₀, b₀)]
          equations).branches.length = n := hbl
      omega

/-- Witness for C4: an exhaustive boolean match `true ⇒ 1, false ⇒ 2`
elides its default arm, and a duplicated `true` pattern emits
`UnreachablePattern`. -/
theorem elab_match_const_invariants_witness :
    (Elab.elabMatchConst (0 : Nat) true (.bool true) 1
        [(.constLit (.bool false), 2)]).defaultCase = none
    ∧ Elab.Message.unreachablePattern
        ∈ (Elab.elabMatchConstLoop (0 : Nat) true [((ConstLit.bool true), 1)]
            [(Elab.CheckedPattern.constLit (.bool true), 2)]).messages := by
  constructor
  · exact ((elab_match_const_invariants 0 true (.bool true) 1
        [(.constLit (.bool false), 2)]).2.2.2
      (by
        rintro pb hpb c hc
        simp at hpb
        subst hpb
        cases hc
        rfl)).mpr ⟨2, rfl, by rfl⟩
  · exact (elab_match_const_invariants (0 : Nat) true (.bool true) 1 []).2.2.1
      [((ConstLit.bool true), 1)] (.bool true) 2 []
      ⟨((ConstLit.bool true), 1), by simp, ⟨rfl, rfl⟩⟩

end Fathom
